import Mathlib

/-!
Verification development for the input-output table analyzer
(`libs/io_analyzer.py` of the iotable repository).

The analyzer's data (code registries and coefficient matrices, loaded from an
Excel workbook at construction time) is modelled as a Lean structure of
association lists; Python strings/integers that flow into dictionary lookups
are modelled by an explicit `PyVal` sum type, so that the dynamic-typing
behaviour of `dict` membership (an `int` key never equals a `str` key) is
captured faithfully.  Numeric values are modelled by `ℚ`.  Functions that can
raise are modelled in `Except`.
-/

/-- Model of the Python values that reach the analyzer's dictionary lookups:
a string, an integer, or `None`. -/
inductive PyVal where
  | pstr (s : String)
  | pint (n : Int)
  | pnone
deriving DecidableEq, Repr

/-- Python equality test between a value and a string dictionary key.
An `int` or `None` never equals a `str` key. -/
def pyStrEq (v : PyVal) (k : String) : Bool :=
  match v with
  | .pstr s => s == k
  | _ => false

/-- Membership test of a `PyVal` in a string-keyed dictionary
(Python `v in d`). -/
def pyvalInKeys {β : Type} (v : PyVal) (m : List (String × β)) : Bool :=
  m.any (fun kv => pyStrEq v kv.1)

/-- Indexing a string-keyed dictionary by a `PyVal` (Python `d[v]`),
returning `none` where Python raises `KeyError`. -/
def pyvalLookup {β : Type} (v : PyVal) : List (String × β) → Option β
  | [] => none
  | kv :: rest => if pyStrEq v kv.1 then some kv.2 else pyvalLookup v rest

/-- Plain association-list lookup with a string key. -/
def assocLookup {β : Type} (k : String) : List (String × β) → Option β
  | [] => none
  | kv :: rest => if kv.1 == k then some kv.2 else assocLookup k rest

/-- Lookup keyed by a `PyVal` dictionary key (used for the `code_h`-keyed
aggregation dictionary, whose keys may be ints or strings). -/
def pvalAssocLookup {β : Type} (k : PyVal) : List (PyVal × β) → Option β
  | [] => none
  | kv :: rest => if kv.1 = k then some kv.2 else pvalAssocLookup k rest

/-- Python truthiness of a value (`if code_h:`): `0`, `""` and `None` are
falsy. -/
def pyTruthy : PyVal → Bool
  | .pstr s => !(s == "")
  | .pint n => !(n == 0)
  | .pnone => false

/-- Rendering of a `PyVal` inside an f-string (`f"Category {code_h}"`). -/
def pyShow : PyVal → String
  | .pstr s => s
  | .pint n => toString n
  | .pnone => "None"

/-- Model of Python `str.strip` on the left: drop leading whitespace. -/
def stripLeftL (l : List Char) : List Char := l.dropWhile Char.isWhitespace

/-- Model of Python `str.strip` on the right: drop trailing whitespace. -/
def stripRightL (l : List Char) : List Char :=
  (l.reverse.dropWhile Char.isWhitespace).reverse

/-- Model of Python `str.strip`: drop whitespace at both ends. -/
def pyStripL (l : List Char) : List Char := stripRightL (stripLeftL l)

/-- Model of Python `str.isdigit` (ASCII digits): nonempty and all digits. -/
def pyIsdigitL (l : List Char) : Bool := !l.isEmpty && l.all Char.isDigit

/-- Branch of `format_code` acting on the stripped character list:
pad a 3-character digit string with a leading `0`, else pass through. -/
def format_code_core (cs : List Char) : List Char :=
  if pyIsdigitL cs && cs.length == 3 then '0' :: cs else cs

/-- Embedding of `format_code` from `load_data` (io_analyzer.py lines 25-30):
`code_str = str(code).strip()`; pad a 3-character digit string with a
leading `0`; otherwise return the stripped string.  This is the variant
acting on values that are already strings. -/
def format_code (s : String) : String := String.mk (format_code_core (pyStripL s.data))

/-- Embedding of `format_code` applied to a non-string (e.g. integer) cell
value: Python first converts it with `str(...)`. -/
def format_code_of_int (n : Int) : String := format_code (toString n)

theorem dropWhile_dropWhile_self {α : Type} (p : α → Bool) (l : List α) :
    (l.dropWhile p).dropWhile p = l.dropWhile p := by
  induction l with
  | nil => rfl
  | cons a t ih =>
    by_cases h : p a = true
    · simp only [List.dropWhile_cons, h, if_true]
      exact ih
    · simp only [List.dropWhile_cons, h, if_false]
      simp only [Bool.not_eq_true] at h
      simp [List.dropWhile_cons, h]

theorem stripLeftL_idem (l : List Char) : stripLeftL (stripLeftL l) = stripLeftL l :=
  dropWhile_dropWhile_self _ l

theorem stripRightL_idem (l : List Char) : stripRightL (stripRightL l) = stripRightL l := by
  unfold stripRightL
  rw [List.reverse_reverse, dropWhile_dropWhile_self]

theorem stripRightL_isPrefixOf (l : List Char) : stripRightL l <+: l := by
  unfold stripRightL
  have h : l.reverse.dropWhile Char.isWhitespace <:+ l.reverse :=
    List.dropWhile_suffix _
  have h2 := List.reverse_prefix.mpr h
  rwa [List.reverse_reverse] at h2

theorem dropWhile_eq_self_of_head {α : Type} (p : α → Bool) (a : α) (t : List α)
    (h : p a = false) : (a :: t).dropWhile p = a :: t := by
  simp [List.dropWhile_cons, h]

theorem head_not_of_dropWhile_eq_self {α : Type} (p : α → Bool) (a : α) (t : List α)
    (h : (a :: t).dropWhile p = a :: t) : p a = false := by
  by_contra hcon
  simp only [Bool.not_eq_false] at hcon
  simp only [List.dropWhile_cons, hcon, if_true] at h
  have hlen : (t.dropWhile p).length ≤ t.length := (List.dropWhile_sublist p).length_le
  rw [h] at hlen
  simp at hlen

theorem stripLeftL_of_prefix (x y : List Char) (hx : stripLeftL x = x) (hp : y <+: x) :
    stripLeftL y = y := by
  cases y with
  | nil => rfl
  | cons a t =>
    obtain ⟨r, hr⟩ := hp
    have hxcons : x = a :: (t ++ r) := by rw [← hr]; rfl
    rw [hxcons] at hx
    have ha := head_not_of_dropWhile_eq_self _ _ _ hx
    exact dropWhile_eq_self_of_head _ _ _ ha

theorem pyStripL_idem (l : List Char) : pyStripL (pyStripL l) = pyStripL l := by
  unfold pyStripL
  have hx : stripLeftL (stripLeftL l) = stripLeftL l := stripLeftL_idem l
  have hpre : stripRightL (stripLeftL l) <+: stripLeftL l := stripRightL_isPrefixOf _
  have h1 : stripLeftL (stripRightL (stripLeftL l)) = stripRightL (stripLeftL l) :=
    stripLeftL_of_prefix _ _ hx hpre
  rw [h1, stripRightL_idem]

theorem stripLeftL_pyStripL (l : List Char) : stripLeftL (pyStripL l) = pyStripL l := by
  unfold pyStripL
  exact stripLeftL_of_prefix _ _ (stripLeftL_idem l) (stripRightL_isPrefixOf _)

theorem stripRightL_pyStripL (l : List Char) : stripRightL (pyStripL l) = pyStripL l := by
  unfold pyStripL
  exact stripRightL_idem _

theorem pyStripL_cons_zero (l : List Char) (h : pyStripL l = l) :
    pyStripL ('0' :: l) = '0' :: l := by
  have hself : stripRightL l = l := by
    rw [← h]
    exact stripRightL_pyStripL l
  have hdrop : l.reverse.dropWhile Char.isWhitespace = l.reverse := by
    unfold stripRightL at hself
    have hcong := congrArg List.reverse hself
    rwa [List.reverse_reverse] at hcong
  have hAppend : (l.reverse ++ ['0']).dropWhile Char.isWhitespace = l.reverse ++ ['0'] := by
    cases hl : l.reverse with
    | nil => decide
    | cons b r =>
      rw [hl] at hdrop
      have hb := head_not_of_dropWhile_eq_self _ _ _ hdrop
      rw [List.cons_append]
      exact dropWhile_eq_self_of_head _ _ _ hb
  have hL : stripLeftL ('0' :: l) = '0' :: l :=
    dropWhile_eq_self_of_head _ _ _ (by decide)
  unfold pyStripL
  rw [hL]
  unfold stripRightL
  have hrev : ('0' :: l).reverse = l.reverse ++ ['0'] := by simp
  rw [hrev, hAppend]
  simp

theorem pyStripL_format_code_core (cs : List Char) (h : pyStripL cs = cs) :
    pyStripL (format_code_core cs) = format_code_core cs := by
  unfold format_code_core
  by_cases hc : (pyIsdigitL cs && cs.length == 3) = true
  · simp only [hc, if_true]
    exact pyStripL_cons_zero _ h
  · simp only [hc, if_false]
    exact h

theorem format_code_core_idem (cs : List Char) :
    format_code_core (format_code_core cs) = format_code_core cs := by
  unfold format_code_core
  cases hc : (pyIsdigitL cs && cs.length == 3) with
  | true =>
    simp only [if_true]
    have hlen : (('0' :: cs).length == 3) = false := by
      simp only [Bool.and_eq_true, beq_iff_eq] at hc
      simp [List.length_cons, hc.2]
    simp only [hlen, Bool.and_false, Bool.false_eq_true, if_false]
  | false =>
    simp [hc]

/-- Idempotence of the basic-code formatter, for arbitrary string input. -/
theorem format_code_idem (s : String) : format_code (format_code s) = format_code s := by
  unfold format_code
  have hdata : (String.mk (format_code_core (pyStripL s.data))).data
      = format_code_core (pyStripL s.data) := rfl
  rw [hdata, pyStripL_format_code_core _ (pyStripL_idem s.data), format_code_core_idem]

/-- Model of a pandas coefficient DataFrame: a row-label index and labeled
columns, each column an association list from row code to coefficient value
(in index order). -/
structure Mat where
  rowIndex : List String
  cols : List (String × List (String × ℚ))
deriving Repr

/-- Loaded state of `IOTableAnalyzer`: the code registries built by
`load_data` (all dictionary keys are strings produced by the code
formatters) and the five coefficient matrices. -/
structure Analyzer where
  code_to_product : List (String × String)
  subsector_to_name : List (String × String)
  basic_to_subsector : List (String × String)
  basic_to_code_h : List (String × PyVal)
  subsector_to_code_h : List (String × PyVal)
  code_h_to_product_h : List (PyVal × String)
  indirect_prod : Mat
  indirect_import : Mat
  value_added : Mat
  jobcoeff : Mat
  directemploycoeff : Mat
deriving Repr

/-- Errors raised by the analyzer (all `ValueError`/`KeyError` in the
source, distinguished here by raise site). -/
inductive PyErr where
  | sectorNotFound (v : PyVal)
  | coeffTypeUnavailable (t : String)
  | columnNotFound
  | subsectorMappingMissing (v : PyVal)
  | keyError
deriving DecidableEq, Repr

/-- One entry of the `impacts` list of an analysis result. -/
structure ImpactEntry where
  sector_code : String
  sector_name : String
  impact : ℚ
deriving DecidableEq, Repr

/-- Result dictionary of `calculate_direct_effects`; `subsector_code` is
`none` exactly when the source dictionary lacks that key (basic types). -/
structure AnalysisResult where
  target_sector : PyVal
  target_product : String
  subsector_code : Option String
  demand_change : ℚ
  coeff_type : String
  coeff_name : String
  impacts : List ImpactEntry
  total_impact : ℚ
  num_affected_sectors : Nat
deriving Repr

/-- Model of `self.coefficients[coeff_type]` membership and lookup: the
dictionary built by `load_data` has exactly the five coefficient keys. -/
def getCoeffMatrix (a : Analyzer) (t : String) : Option Mat :=
  if t = "indirect_prod" then some a.indirect_prod
  else if t = "indirect_import" then some a.indirect_import
  else if t = "value_added" then some a.value_added
  else if t = "jobcoeff" then some a.jobcoeff
  else if t = "directemploycoeff" then some a.directemploycoeff
  else none

/-- Display names `coeff_names` used inside `calculate_direct_effects`. -/
def coeffName (t : String) : String :=
  if t = "indirect_prod" then "Indirect Production (I-Ad)⁻¹"
  else if t = "indirect_import" then "Indirect Import"
  else if t = "value_added" then "Value-Added"
  else if t = "jobcoeff" then "Total Job Creation"
  else if t = "directemploycoeff" then "Direct Employment"
  else ""

/-- Conversion applied to `target_sector` at the top of
`calculate_direct_effects`: a digit string becomes its `int` value, an int
stays, anything else yields Python `None`. -/
def intFormOf (v : PyVal) : PyVal :=
  match v with
  | .pstr s => if pyIsdigitL s.data then .pint (s.data.foldl (fun acc c => acc * 10 + (Int.ofNat c.toNat - 48)) 0) else .pnone
  | .pint n => .pint n
  | .pnone => .pnone

/-- Stable insertion step of a descending sort by a rational key; an element
is placed before the first element of strictly smaller key, so that equal
keys keep their original relative order (Python `list.sort` with
`reverse=True` is stable). -/
def insertDesc {α : Type} (key : α → ℚ) (x : α) : List α → List α
  | [] => [x]
  | y :: ys => if key y ≤ key x then x :: y :: ys else y :: insertDesc key x ys

/-- Stable descending sort by a rational key, modelling
`list.sort(key=..., reverse=True)`. -/
def sortDesc {α : Type} (key : α → ℚ) (l : List α) : List α :=
  l.foldr (insertDesc key) []

theorem insertDesc_perm {α : Type} (key : α → ℚ) (x : α) (l : List α) :
    List.Perm (insertDesc key x l) (x :: l) := by
  induction l with
  | nil => exact List.Perm.refl _
  | cons y ys ih =>
    unfold insertDesc
    by_cases h : key y ≤ key x
    · rw [if_pos h]
    · rw [if_neg h]
      exact (ih.cons y).trans (List.Perm.swap x y ys)

theorem sortDesc_perm {α : Type} (key : α → ℚ) (l : List α) :
    List.Perm (sortDesc key l) l := by
  induction l with
  | nil => exact List.Perm.refl _
  | cons y ys ih =>
    unfold sortDesc
    simp only [List.foldr_cons]
    exact (insertDesc_perm key y _).trans (ih.cons y)

theorem mem_sortDesc {α : Type} (key : α → ℚ) (l : List α) (x : α) :
    x ∈ sortDesc key l ↔ x ∈ l :=
  (sortDesc_perm key l).mem_iff

theorem sortDesc_length {α : Type} (key : α → ℚ) (l : List α) :
    (sortDesc key l).length = l.length :=
  (sortDesc_perm key l).length_eq

theorem insertDesc_map {α β : Type} (g : α → β) (k1 : α → ℚ) (k2 : β → ℚ)
    (hk : ∀ x y : α, k2 (g x) ≤ k2 (g y) ↔ k1 x ≤ k1 y) (x : α) (l : List α) :
    insertDesc k2 (g x) (l.map g) = (insertDesc k1 x l).map g := by
  induction l with
  | nil => rfl
  | cons y ys ih =>
    simp only [List.map_cons]
    unfold insertDesc
    by_cases h : k1 y ≤ k1 x
    · rw [if_pos ((hk y x).mpr h), if_pos h]
      simp
    · rw [if_neg (fun hc => h ((hk y x).mp hc)), if_neg h, ih]
      simp

theorem sortDesc_map {α β : Type} (g : α → β) (k1 : α → ℚ) (k2 : β → ℚ)
    (hk : ∀ x y : α, k2 (g x) ≤ k2 (g y) ↔ k1 x ≤ k1 y) (l : List α) :
    sortDesc k2 (l.map g) = (sortDesc k1 l).map g := by
  induction l with
  | nil => rfl
  | cons y ys ih =>
    unfold sortDesc
    simp only [List.map_cons, List.foldr_cons]
    unfold sortDesc at ih
    rw [ih]
    exact insertDesc_map g k1 k2 hk y _

/-- Sort key used by the result lists: absolute impact (descending). -/
def impactKey (e : ImpactEntry) : ℚ := |e.impact|

/-- Tail of the basic-coefficient branch of `calculate_direct_effects`
(io_analyzer.py lines 214-245): scale the fetched column by
`demand_change / 1000`, keep only rows registered in `code_to_product`
(rows without a registered product are dropped by the `if sector_code in
self.code_to_product` guard), sort by descending absolute impact, and sum
the kept impacts. -/
def buildBasicResult (a : Analyzer) (fts : PyVal) (target_product : String)
    (demand_change : ℚ) (coeff_type : String) (col : List (String × ℚ)) : AnalysisResult :=
  let impacts := col.map (fun rc => (rc.1, rc.2 * demand_change / 1000))
  let results := impacts.filterMap (fun rc =>
    (assocLookup rc.1 a.code_to_product).map (fun name =>
      ImpactEntry.mk rc.1 name rc.2))
  let sorted := sortDesc impactKey results
  { target_sector := fts
    target_product := target_product
    subsector_code := none
    demand_change := demand_change
    coeff_type := coeff_type
    coeff_name := coeffName coeff_type
    impacts := sorted
    total_impact := (sorted.map (fun e => e.impact)).sum
    num_affected_sectors := sorted.length }

/-- Display name of a sub-sector row in a job-effect result: the registered
sub-sector name, or the synthesized fallback label. -/
def jobRowName (a : Analyzer) (code : String) : String :=
  match assocLookup code a.subsector_to_name with
  | some n => n
  | none => "Sub-sector " ++ code

/-- Tail of `_calculate_job_effects` (io_analyzer.py lines 291-331): scale
the sub-sector column by `demand_change / 1000`, name every row (with the
fallback label when unregistered; no row is dropped), sort by descending
absolute impact, and sum; the result carries the resolved
`subsector_code`. -/
def buildJobResult (a : Analyzer) (target_sector : PyVal) (target_product : String)
    (subsector_code : String) (demand_change : ℚ) (coeff_type coeff_name : String)
    (col : List (String × ℚ)) : AnalysisResult :=
  let impacts := col.map (fun rc => (rc.1, rc.2 * (demand_change / 1000)))
  let results := impacts.map (fun rc => ImpactEntry.mk rc.1 (jobRowName a rc.1) rc.2)
  let sorted := sortDesc impactKey results
  { target_sector := target_sector
    target_product := target_product
    subsector_code := some subsector_code
    demand_change := demand_change
    coeff_type := coeff_type
    coeff_name := coeff_name
    impacts := sorted
    total_impact := (sorted.map (fun e => e.impact)).sum
    num_affected_sectors := sorted.length }

/-- Embedding of `_calculate_job_effects` (io_analyzer.py lines 268-331):
re-resolve the target product, resolve the sub-sector mapping (failing with
the mapping-missing error if absent), fetch the sub-sector column of the
job-coefficient matrix (failing if absent), and build the result. -/
def calculate_job_effects (a : Analyzer) (target_sector : PyVal) (demand_change : ℚ)
    (coeff_type coeff_name : String) : Except PyErr AnalysisResult :=
  match pyvalLookup target_sector a.code_to_product with
  | none => Except.error PyErr.keyError
  | some target_product =>
    match pyvalLookup target_sector a.basic_to_subsector with
    | none => Except.error (PyErr.subsectorMappingMissing target_sector)
    | some subsector_code =>
      match getCoeffMatrix a coeff_type with
      | none => Except.error PyErr.keyError
      | some m =>
        match assocLookup subsector_code m.cols with
        | none => Except.error PyErr.columnNotFound
        | some col =>
          Except.ok (buildJobResult a target_sector target_product subsector_code
            demand_change coeff_type coeff_name col)

/-- Embedding of `calculate_direct_effects` (io_analyzer.py lines 156-245):
compute the integer form of `target_sector`; raise `SectorNotFound` when
neither the value nor its integer form is a key of `code_to_product`
(note there is no `format_code` normalization here); pick whichever form is
registered; check the coefficient type; look up the target product; then
dispatch to the job branch for the two employment types, or fetch the
basic-coded column and build the result. -/
def calculate_direct_effects (a : Analyzer) (target_sector : PyVal)
    (demand_change : ℚ) (coeff_type : String) : Except PyErr AnalysisResult :=
  let tsInt := intFormOf target_sector
  if !(pyvalInKeys target_sector a.code_to_product) && !(pyvalInKeys tsInt a.code_to_product) then
    Except.error (PyErr.sectorNotFound target_sector)
  else
    let fts := if pyvalInKeys target_sector a.code_to_product then target_sector else tsInt
    match getCoeffMatrix a coeff_type with
    | none => Except.error (PyErr.coeffTypeUnavailable coeff_type)
    | some m =>
      match pyvalLookup fts a.code_to_product with
      | none => Except.error PyErr.keyError
      | some target_product =>
        if coeff_type = "jobcoeff" ∨ coeff_type = "directemploycoeff" then
          calculate_job_effects a fts demand_change coeff_type (coeffName coeff_type)
        else
          match pyvalLookup fts (m.cols) with
          | none => Except.error PyErr.columnNotFound
          | some col =>
            Except.ok (buildBasicResult a fts target_product demand_change coeff_type col)

/-- Aggregated entry per `code_h` category. -/
structure AggEntry where
  code_h : PyVal
  product_h : String
  impact : ℚ
  sector_count : Nat
deriving DecidableEq, Repr

/-- Result dictionary of `aggregate_to_code_h`. -/
structure AggregateResult where
  target_sector : PyVal
  target_product : String
  demand_change : ℚ
  coeff_type : String
  coeff_name : String
  aggregation_level : String
  impacts : List AggEntry
  total_impact : ℚ
  num_affected_categories : Nat
deriving Repr

/-- Category resolution performed inside the aggregation loop
(io_analyzer.py lines 354-361): for a job-coefficient result whose row code
is a key of `subsector_to_code_h`, use that mapping; otherwise (also for
job-coefficient rows missing from the sub-sector map) fall back to the
`basic_to_code_h` mapping. -/
def resolveCodeH (a : Analyzer) (isJob : Bool) (code : String) : Option PyVal :=
  if isJob && (assocLookup code a.subsector_to_code_h).isSome then
    assocLookup code a.subsector_to_code_h
  else
    assocLookup code a.basic_to_code_h

/-- Resolution including the truthiness guard `if code_h:`: the category an
entry actually contributes to, or `none` if it is skipped (unresolvable, or
resolved to a falsy value such as `0` or `""`). -/
def resolveContrib (a : Analyzer) (isJob : Bool) (code : String) : Option PyVal :=
  match resolveCodeH a isJob code with
  | some ch => if pyTruthy ch then some ch else none
  | none => none

/-- Category display name with the `f"Category {code_h}"` fallback. -/
def categoryName (a : Analyzer) (ch : PyVal) : String :=
  match pvalAssocLookup ch a.code_h_to_product_h with
  | some n => n
  | none => "Category " ++ pyShow ch

/-- One update of the `code_h_impacts` dictionary: add the impact to an
existing category entry (keeping insertion order) or append a fresh entry.
The source initializes a fresh entry with zero impact and count and then
immediately adds the contribution in the same iteration; the net effect is
recorded directly. -/
def upsertAgg (a : Analyzer) (ch : PyVal) (v : ℚ) : List AggEntry → List AggEntry
  | [] => [AggEntry.mk ch (categoryName a ch) v 1]
  | e :: rest =>
    if e.code_h = ch then
      AggEntry.mk e.code_h e.product_h (e.impact + v) (e.sector_count + 1) :: rest
    else
      e :: upsertAgg a ch v rest

/-- The aggregation loop over the impact entries (io_analyzer.py lines
350-375): resolve each entry's category and accumulate, skipping entries
with no truthy resolution. -/
def aggFold (a : Analyzer) (isJob : Bool) : List AggEntry → List ImpactEntry → List AggEntry
  | acc, [] => acc
  | acc, e :: rest =>
    match resolveContrib a isJob e.sector_code with
    | some ch => aggFold a isJob (upsertAgg a ch e.impact acc) rest
    | none => aggFold a isJob acc rest

/-- Sort key for aggregated categories: absolute accumulated impact. -/
def aggKey (g : AggEntry) : ℚ := |g.impact|

/-- Embedding of `aggregate_to_code_h` (io_analyzer.py lines 333-393):
detect a job-coefficient result by the presence of `subsector_code`,
aggregate the impacts per category, sort by descending absolute impact, and
total the aggregated impacts. -/
def aggregate_to_code_h (a : Analyzer) (r : AnalysisResult) : AggregateResult :=
  let isJob := r.subsector_code.isSome
  let entries := aggFold a isJob [] r.impacts
  let sorted := sortDesc aggKey entries
  { target_sector := r.target_sector
    target_product := r.target_product
    demand_change := r.demand_change
    coeff_type := r.coeff_type
    coeff_name := r.coeff_name
    aggregation_level := "code_h"
    impacts := sorted
    total_impact := (sorted.map (fun g => g.impact)).sum
    num_affected_categories := sorted.length }

/-- The five coefficient types iterated by `calculate_all_effects`
(io_analyzer.py line 448). -/
def coefficient_types : List String :=
  ["indirect_prod", "indirect_import", "value_added", "jobcoeff", "directemploycoeff"]

/-- Embedding of `calculate_all_effects` (io_analyzer.py lines 432-473):
run `calculate_direct_effects` for each of the five coefficient types; a
raised exception stores `None` in that type's slot instead of aborting. -/
def calculate_all_effects (a : Analyzer) (selected_sector : PyVal) (demand_change : ℚ) :
    List (String × Option AnalysisResult) :=
  coefficient_types.map (fun t =>
    (t, (calculate_direct_effects a selected_sector demand_change t).toOption))

/-- Per-sector record produced by `calculate_linkages` for all sectors. -/
structure LinkageEntry where
  sector_code : String
  sector_name : String
  backward_linkage : ℚ
  forward_linkage : ℚ
  backward_normalized : ℚ
  forward_normalized : ℚ
  is_key_sector : Bool
deriving DecidableEq, Repr

/-- Result of `calculate_linkages` with no sector argument. -/
structure LinkageAll where
  sectors : List LinkageEntry
  avg_backward : ℚ
  avg_forward : ℚ
deriving Repr

/-- Sum of one column of a matrix (a backward linkage). -/
def colSum (col : List (String × ℚ)) : ℚ := (col.map (fun rc => rc.2)).sum

/-- Sum of the row labelled `code` across all columns (a forward linkage);
a column missing the label contributes nothing. -/
def rowSum (m : Mat) (code : String) : ℚ :=
  (m.cols.map (fun c =>
    match assocLookup code c.2 with
    | some v => v
    | none => 0)).sum

/-- Mean of the per-column sums of the Leontief matrix. -/
def avgBackward (m : Mat) : ℚ :=
  (m.cols.map (fun c => colSum c.2)).sum / (m.cols.length : ℚ)

/-- Mean of the per-row sums of the Leontief matrix over its row index. -/
def avgForward (m : Mat) : ℚ :=
  (m.rowIndex.map (fun r => rowSum m r)).sum / (m.rowIndex.length : ℚ)

/-- Embedding of the `sector_code is None` branch of `calculate_linkages`
(io_analyzer.py lines 558-579): one record per column of the
`indirect_prod` matrix whose code is registered in `code_to_product`, with
column/row sums normalized by the matrix-wide means. -/
def calculate_linkages_all (a : Analyzer) : LinkageAll :=
  let m := a.indirect_prod
  let avgB := avgBackward m
  let avgF := avgForward m
  let sectors := m.cols.filterMap (fun c =>
    match assocLookup c.1 a.code_to_product with
    | some name =>
      let bw := colSum c.2
      let fw := rowSum m c.1
      some (LinkageEntry.mk c.1 name bw fw (bw / avgB) (fw / avgF)
        (decide (bw / avgB > 1) && decide (fw / avgF > 1)))
    | none => none)
  LinkageAll.mk sectors avgB avgF

/-- Result of `identify_key_sectors`. -/
structure KeySectors where
  key_sectors : List LinkageEntry
  backward_only : List LinkageEntry
  forward_only : List LinkageEntry
  weak_linkage : List LinkageEntry
  threshold : ℚ
deriving Repr

/-- Embedding of `identify_key_sectors` (io_analyzer.py lines 710-760):
partition the sectors of `calculate_linkages(all)` by comparing normalized
backward/forward linkages against the threshold (the `elif` chain), then
sort three of the buckets by their defining criterion. -/
def identify_key_sectors (a : Analyzer) (threshold : ℚ) : KeySectors :=
  let all := calculate_linkages_all a
  let key := all.sectors.filter (fun s =>
    decide (s.backward_normalized > threshold) && decide (s.forward_normalized > threshold))
  let bwOnly := all.sectors.filter (fun s =>
    decide (s.backward_normalized > threshold) && !(decide (s.forward_normalized > threshold)))
  let fwOnly := all.sectors.filter (fun s =>
    !(decide (s.backward_normalized > threshold)) && decide (s.forward_normalized > threshold))
  let weak := all.sectors.filter (fun s =>
    !(decide (s.backward_normalized > threshold)) && !(decide (s.forward_normalized > threshold)))
  { key_sectors := sortDesc (fun s => s.backward_normalized + s.forward_normalized) key
    backward_only := sortDesc (fun s => s.backward_normalized) bwOnly
    forward_only := sortDesc (fun s => s.forward_normalized) fwOnly
    weak_linkage := weak
    threshold := threshold }

/-- One scenario of a sensitivity analysis (io_analyzer.py lines 778-784);
`impact_ratio` is guarded to `0` when the demand change is `0`. -/
structure Scenario where
  demand_change : ℚ
  total_impact : ℚ
  num_affected_sectors : Nat
  impact_ratio : ℚ
  top_3_sectors : List ImpactEntry
deriving Repr

/-- Result of `sensitivity_analysis`. -/
structure SensResult where
  sector_code : String
  sector_name : String
  coeff_type : String
  scenarios : List Scenario
deriving Repr

/-- Construction of one scenario record from a direct-effects result. -/
def mkScenario (demand_change : ℚ) (res : AnalysisResult) : Scenario :=
  { demand_change := demand_change
    total_impact := res.total_impact
    num_affected_sectors := res.num_affected_sectors
    impact_ratio :=
      if demand_change ≠ 0 then res.total_impact / (demand_change / 1000) else 0
    top_3_sectors := res.impacts.take 3 }

/-- The scenario loop of `sensitivity_analysis`: sequential, aborting on the
first raised exception. -/
def runScenarios (a : Analyzer) (sector_code : String) (coeff_type : String) :
    List ℚ → Except PyErr (List Scenario)
  | [] => Except.ok []
  | d :: rest =>
    match calculate_direct_effects a (PyVal.pstr sector_code) d coeff_type with
    | Except.error e => Except.error e
    | Except.ok res =>
      match runScenarios a sector_code coeff_type rest with
      | Except.error e => Except.error e
      | Except.ok tail => Except.ok (mkScenario d res :: tail)

/-- Embedding of `sensitivity_analysis` (io_analyzer.py lines 762-791): one
scenario per demand change in input order, then the direct
`self.code_to_product[sector_code]` access for the sector name. -/
def sensitivity_analysis (a : Analyzer) (sector_code : String) (demand_changes : List ℚ)
    (coeff_type : String) : Except PyErr SensResult :=
  match runScenarios a sector_code coeff_type demand_changes with
  | Except.error e => Except.error e
  | Except.ok scenarios =>
    match assocLookup sector_code a.code_to_product with
    | none => Except.error PyErr.keyError
    | some name => Except.ok (SensResult.mk sector_code name coeff_type scenarios)

/-- Observation of an analysis call: did it raise `SectorNotFound`? -/
def raisesSectorNotFound (x : Except PyErr AnalysisResult) : Bool :=
  match x with
  | Except.error (PyErr.sectorNotFound _) => true
  | _ => false

/-- Observation of an `Except` computation: did it return normally? -/
def exceptIsOk {ε α : Type} (x : Except ε α) : Bool :=
  match x with
  | Except.ok _ => true
  | Except.error _ => false

theorem pyStrEq_pstr (s k : String) : pyStrEq (PyVal.pstr s) k = (s == k) := rfl

theorem intFormOf_ne_pstr (v : PyVal) (s : String) : intFormOf v ≠ PyVal.pstr s := by
  cases v with
  | pstr u =>
    unfold intFormOf
    by_cases h : pyIsdigitL u.data = true
    · simp [h]
    · simp [h]
  | pint n => simp [intFormOf]
  | pnone => simp [intFormOf]

theorem pyStrEq_eq_false_of_ne_pstr (w : PyVal) (hw : ∀ s, w ≠ PyVal.pstr s) (k : String) :
    pyStrEq w k = false := by
  cases w with
  | pstr s => exact absurd rfl (hw s)
  | pint n => rfl
  | pnone => rfl

theorem pyvalInKeys_eq_false_of_ne_pstr {β : Type} (w : PyVal) (hw : ∀ s, w ≠ PyVal.pstr s)
    (m : List (String × β)) : pyvalInKeys w m = false := by
  unfold pyvalInKeys
  rw [List.any_eq_false]
  intro kv _
  simp [pyStrEq_eq_false_of_ne_pstr w hw kv.1]

theorem intFormOf_notInKeys {β : Type} (v : PyVal) (m : List (String × β)) :
    pyvalInKeys (intFormOf v) m = false :=
  pyvalInKeys_eq_false_of_ne_pstr _ (intFormOf_ne_pstr v) m

theorem pyvalLookup_pstr {β : Type} (s : String) (m : List (String × β)) :
    pyvalLookup (PyVal.pstr s) m = assocLookup s m := by
  induction m with
  | nil => rfl
  | cons kv rest ih =>
    unfold pyvalLookup assocLookup
    rw [pyStrEq_pstr]
    by_cases h : s = kv.1
    · rw [h]
      simp
    · have h1 : (s == kv.1) = false := by simp [h]
      have h2 : (kv.1 == s) = false := by
        simp only [beq_eq_false_iff_ne, ne_eq]
        exact fun hc => h hc.symm
      rw [h1, h2]
      simp only [Bool.false_eq_true, if_false]
      exact ih

theorem pyvalInKeys_eq_isSome {β : Type} (v : PyVal) (m : List (String × β)) :
    pyvalInKeys v m = (pyvalLookup v m).isSome := by
  induction m with
  | nil => rfl
  | cons kv rest ih =>
    unfold pyvalInKeys pyvalLookup
    by_cases h : pyStrEq v kv.1 = true
    · simp [h]
    · simp only [Bool.not_eq_true] at h
      simp only [List.any_cons, h, Bool.false_or, Bool.false_eq_true, if_false]
      exact ih

theorem guard_eq_not_inKeys (a : Analyzer) (v : PyVal) :
    (!(pyvalInKeys v a.code_to_product) && !(pyvalInKeys (intFormOf v) a.code_to_product))
      = !(pyvalInKeys v a.code_to_product) := by
  rw [intFormOf_notInKeys]
  simp

theorem calc_not_found (a : Analyzer) (v : PyVal) (d : ℚ) (t : String)
    (h : pyvalInKeys v a.code_to_product = false) :
    calculate_direct_effects a v d t = Except.error (PyErr.sectorNotFound v) := by
  simp only [calculate_direct_effects]
  rw [guard_eq_not_inKeys, h]
  simp

theorem calc_registered (a : Analyzer) (v : PyVal) (d : ℚ) (t : String)
    (h : pyvalInKeys v a.code_to_product = true) :
    calculate_direct_effects a v d t =
      (match getCoeffMatrix a t with
      | none => Except.error (PyErr.coeffTypeUnavailable t)
      | some m =>
        match pyvalLookup v a.code_to_product with
        | none => Except.error PyErr.keyError
        | some target_product =>
          if t = "jobcoeff" ∨ t = "directemploycoeff" then
            calculate_job_effects a v d t (coeffName t)
          else
            match pyvalLookup v (m.cols) with
            | none => Except.error PyErr.columnNotFound
            | some col =>
              Except.ok (buildBasicResult a v target_product d t col)) := by
  simp only [calculate_direct_effects]
  rw [guard_eq_not_inKeys, h]
  simp

theorem calc_eq_job (a : Analyzer) (s : String) (d : ℚ) (t : String) (p : String)
    (hp : assocLookup s a.code_to_product = some p)
    (hm : (getCoeffMatrix a t).isSome = true)
    (hjob : t = "jobcoeff" ∨ t = "directemploycoeff") :
    calculate_direct_effects a (PyVal.pstr s) d t
      = calculate_job_effects a (PyVal.pstr s) d t (coeffName t) := by
  have hin : pyvalInKeys (PyVal.pstr s) a.code_to_product = true := by
    rw [pyvalInKeys_eq_isSome, pyvalLookup_pstr, hp]
    rfl
  rw [calc_registered a _ d t hin]
  cases hmm : getCoeffMatrix a t with
  | none => rw [hmm] at hm; simp at hm
  | some m =>
    simp only [hmm]
    rw [pyvalLookup_pstr, hp]
    simp only [if_pos hjob]

theorem calc_eq_basic (a : Analyzer) (s : String) (d : ℚ) (t : String) (p : String)
    (m : Mat) (col : List (String × ℚ))
    (hp : assocLookup s a.code_to_product = some p)
    (hm : getCoeffMatrix a t = some m)
    (hnj : ¬(t = "jobcoeff" ∨ t = "directemploycoeff"))
    (hcol : assocLookup s m.cols = some col) :
    calculate_direct_effects a (PyVal.pstr s) d t
      = Except.ok (buildBasicResult a (PyVal.pstr s) p d t col) := by
  have hin : pyvalInKeys (PyVal.pstr s) a.code_to_product = true := by
    rw [pyvalInKeys_eq_isSome, pyvalLookup_pstr, hp]
    rfl
  rw [calc_registered a _ d t hin]
  simp only [hm]
  rw [pyvalLookup_pstr, hp]
  simp only [if_neg hnj]
  rw [pyvalLookup_pstr, hcol]

theorem job_eval (a : Analyzer) (s : String) (d : ℚ) (t cn : String) (p sc : String)
    (m : Mat) (col : List (String × ℚ))
    (hp : assocLookup s a.code_to_product = some p)
    (hsc : assocLookup s a.basic_to_subsector = some sc)
    (hm : getCoeffMatrix a t = some m)
    (hcol : assocLookup sc m.cols = some col) :
    calculate_job_effects a (PyVal.pstr s) d t cn
      = Except.ok (buildJobResult a (PyVal.pstr s) p sc d t cn col) := by
  unfold calculate_job_effects
  rw [pyvalLookup_pstr, hp, pyvalLookup_pstr, hsc, hm]
  simp [hcol]

theorem job_missing (a : Analyzer) (s : String) (d : ℚ) (t cn : String) (p : String)
    (hp : assocLookup s a.code_to_product = some p)
    (hnone : assocLookup s a.basic_to_subsector = none) :
    calculate_job_effects a (PyVal.pstr s) d t cn
      = Except.error (PyErr.subsectorMappingMissing (PyVal.pstr s)) := by
  unfold calculate_job_effects
  rw [pyvalLookup_pstr, hp, pyvalLookup_pstr, hnone]

theorem job_col_missing (a : Analyzer) (s : String) (d : ℚ) (t cn : String) (p sc : String)
    (m : Mat)
    (hp : assocLookup s a.code_to_product = some p)
    (hsc : assocLookup s a.basic_to_subsector = some sc)
    (hm : getCoeffMatrix a t = some m)
    (hcol : assocLookup sc m.cols = none) :
    calculate_job_effects a (PyVal.pstr s) d t cn
      = Except.error PyErr.columnNotFound := by
  unfold calculate_job_effects
  rw [pyvalLookup_pstr, hp, pyvalLookup_pstr, hsc, hm]
  simp [hcol]

/-- Scaling of a single impact entry by a constant factor. -/
def scaleEntry (k : ℚ) (e : ImpactEntry) : ImpactEntry :=
  ImpactEntry.mk e.sector_code e.sector_name (k * e.impact)

theorem sum_map_snd_scale (col : List (String × ℚ)) (c : ℚ) :
    ((col.map (fun rc => rc.2 * c)).sum) = c * (col.map (fun rc => rc.2)).sum := by
  induction col with
  | nil => simp
  | cons rc rest ih =>
    simp only [List.map_cons, List.sum_cons, ih]
    ring

/-- The entry built from one matrix row in the job branch. -/
def jobEntryOf (a : Analyzer) (d : ℚ) (rc : String × ℚ) : ImpactEntry :=
  ImpactEntry.mk rc.1 (jobRowName a rc.1) (rc.2 * (d / 1000))

theorem buildJobResult_impacts (a : Analyzer) (ts : PyVal) (p sc : String) (d : ℚ)
    (t cn : String) (col : List (String × ℚ)) :
    (buildJobResult a ts p sc d t cn col).impacts
      = sortDesc impactKey (col.map (jobEntryOf a d)) := by
  simp only [buildJobResult]
  rw [List.map_map]
  rfl

theorem buildJobResult_perm (a : Analyzer) (ts : PyVal) (p sc : String) (d : ℚ)
    (t cn : String) (col : List (String × ℚ)) :
    List.Perm (buildJobResult a ts p sc d t cn col).impacts (col.map (jobEntryOf a d)) := by
  rw [buildJobResult_impacts]
  exact sortDesc_perm _ _

theorem buildJobResult_total (a : Analyzer) (ts : PyVal) (p sc : String) (d : ℚ)
    (t cn : String) (col : List (String × ℚ)) :
    (buildJobResult a ts p sc d t cn col).total_impact
      = d / 1000 * (col.map (fun rc => rc.2)).sum := by
  have hperm := buildJobResult_perm a ts p sc d t cn col
  have hsum := (hperm.map (fun e => e.impact)).sum_eq
  have htot : (buildJobResult a ts p sc d t cn col).total_impact
      = ((buildJobResult a ts p sc d t cn col).impacts.map (fun e => e.impact)).sum := rfl
  rw [htot, hsum, List.map_map]
  have hcomp : ((fun e : ImpactEntry => e.impact) ∘ jobEntryOf a d)
      = fun rc : String × ℚ => rc.2 * (d / 1000) := rfl
  rw [hcomp]
  have := sum_map_snd_scale col (d / 1000)
  rw [this]

theorem buildJobResult_num (a : Analyzer) (ts : PyVal) (p sc : String) (d : ℚ)
    (t cn : String) (col : List (String × ℚ)) :
    (buildJobResult a ts p sc d t cn col).num_affected_sectors = col.length := by
  have hperm := buildJobResult_perm a ts p sc d t cn col
  have := hperm.length_eq
  simpa using this

/-- The optional entry built from one matrix row in the basic branch
(`none` when the row code is not registered, in which case the row is
dropped). -/
def basicEntryOf (a : Analyzer) (d : ℚ) (rc : String × ℚ) : Option ImpactEntry :=
  (assocLookup rc.1 a.code_to_product).map (fun name =>
    ImpactEntry.mk rc.1 name (rc.2 * d / 1000))

/-- Predicate for matrix rows kept by the basic branch. -/
def rowRegistered (a : Analyzer) (rc : String × ℚ) : Bool :=
  (assocLookup rc.1 a.code_to_product).isSome

theorem buildBasicResult_impacts (a : Analyzer) (v : PyVal) (p : String) (d : ℚ)
    (t : String) (col : List (String × ℚ)) :
    (buildBasicResult a v p d t col).impacts
      = sortDesc impactKey (col.filterMap (basicEntryOf a d)) := by
  simp only [buildBasicResult]
  rw [List.filterMap_map]
  rfl

theorem buildBasicResult_perm (a : Analyzer) (v : PyVal) (p : String) (d : ℚ)
    (t : String) (col : List (String × ℚ)) :
    List.Perm (buildBasicResult a v p d t col).impacts (col.filterMap (basicEntryOf a d)) := by
  rw [buildBasicResult_impacts]
  exact sortDesc_perm _ _

theorem basic_sum_aux (a : Analyzer) (d : ℚ) (col : List (String × ℚ)) :
    ((col.filterMap (basicEntryOf a d)).map (fun e => e.impact)).sum
      = d / 1000 * ((col.filter (rowRegistered a)).map (fun rc => rc.2)).sum := by
  induction col with
  | nil => simp
  | cons rc rest ih =>
    cases h : assocLookup rc.1 a.code_to_product with
    | none =>
      have h1 : basicEntryOf a d rc = none := by simp [basicEntryOf, h]
      have h2 : rowRegistered a rc = false := by simp [rowRegistered, h]
      simp only [List.filterMap_cons, h1, List.filter_cons, h2, Bool.false_eq_true, if_false]
      exact ih
    | some name =>
      have h1 : basicEntryOf a d rc = some (ImpactEntry.mk rc.1 name (rc.2 * d / 1000)) := by
        simp [basicEntryOf, h]
      have h2 : rowRegistered a rc = true := by simp [rowRegistered, h]
      simp only [List.filterMap_cons, h1, List.filter_cons, h2, if_true, List.map_cons,
        List.sum_cons, ih]
      ring

theorem basic_len_aux (a : Analyzer) (d : ℚ) (col : List (String × ℚ)) :
    (col.filterMap (basicEntryOf a d)).length = (col.filter (rowRegistered a)).length := by
  induction col with
  | nil => rfl
  | cons rc rest ih =>
    cases h : assocLookup rc.1 a.code_to_product with
    | none =>
      have h1 : basicEntryOf a d rc = none := by simp [basicEntryOf, h]
      have h2 : rowRegistered a rc = false := by simp [rowRegistered, h]
      simp only [List.filterMap_cons, h1, List.filter_cons, h2, Bool.false_eq_true, if_false]
      exact ih
    | some name =>
      have h1 : basicEntryOf a d rc = some (ImpactEntry.mk rc.1 name (rc.2 * d / 1000)) := by
        simp [basicEntryOf, h]
      have h2 : rowRegistered a rc = true := by simp [rowRegistered, h]
      simp only [List.filterMap_cons, h1, List.filter_cons, h2, if_true, List.length_cons, ih]

theorem buildBasicResult_total (a : Analyzer) (v : PyVal) (p : String) (d : ℚ)
    (t : String) (col : List (String × ℚ)) :
    (buildBasicResult a v p d t col).total_impact
      = d / 1000 * ((col.filter (rowRegistered a)).map (fun rc => rc.2)).sum := by
  have hperm := buildBasicResult_perm a v p d t col
  have hsum := (hperm.map (fun e => e.impact)).sum_eq
  have htot : (buildBasicResult a v p d t col).total_impact
      = ((buildBasicResult a v p d t col).impacts.map (fun e => e.impact)).sum := rfl
  rw [htot, hsum, basic_sum_aux]

theorem buildBasicResult_num (a : Analyzer) (v : PyVal) (p : String) (d : ℚ)
    (t : String) (col : List (String × ℚ)) :
    (buildBasicResult a v p d t col).num_affected_sectors
      = (col.filter (rowRegistered a)).length := by
  have hperm := buildBasicResult_perm a v p d t col
  have hlen := hperm.length_eq
  have hnum : (buildBasicResult a v p d t col).num_affected_sectors
      = (buildBasicResult a v p d t col).impacts.length := rfl
  rw [hnum, hlen, basic_len_aux]

theorem impactKey_scaleEntry_iff (e1 e2 : ImpactEntry) :
    impactKey (scaleEntry 2 e1) ≤ impactKey (scaleEntry 2 e2) ↔ impactKey e1 ≤ impactKey e2 := by
  simp only [impactKey, scaleEntry]
  rw [abs_mul, abs_mul]
  have h2 : |(2 : ℚ)| = 2 := by norm_num
  rw [h2]
  constructor
  · intro h
    linarith
  · intro h
    linarith

theorem sum_map_impact_scale (l : List ImpactEntry) :
    (l.map (fun e => 2 * e.impact)).sum = 2 * (l.map (fun e => e.impact)).sum := by
  induction l with
  | nil => simp
  | cons e rest ih =>
    simp only [List.map_cons, List.sum_cons, ih]
    ring

theorem buildJobResult_double_impacts (a : Analyzer) (ts : PyVal) (p sc : String) (d : ℚ)
    (t cn : String) (col : List (String × ℚ)) :
    (buildJobResult a ts p sc (2 * d) t cn col).impacts
      = (buildJobResult a ts p sc d t cn col).impacts.map (scaleEntry 2) := by
  have hfun : jobEntryOf a (2 * d) = scaleEntry 2 ∘ jobEntryOf a d := by
    funext rc
    simp only [jobEntryOf, scaleEntry, Function.comp_apply]
    have h : rc.2 * (2 * d / 1000) = 2 * (rc.2 * (d / 1000)) := by ring
    rw [h]
  rw [buildJobResult_impacts, buildJobResult_impacts, hfun, ← List.map_map]
  exact sortDesc_map (scaleEntry 2) impactKey impactKey impactKey_scaleEntry_iff _

theorem buildJobResult_double_total (a : Analyzer) (ts : PyVal) (p sc : String) (d : ℚ)
    (t cn : String) (col : List (String × ℚ)) :
    (buildJobResult a ts p sc (2 * d) t cn col).total_impact
      = 2 * (buildJobResult a ts p sc d t cn col).total_impact := by
  have h1 : (buildJobResult a ts p sc (2 * d) t cn col).total_impact
      = ((buildJobResult a ts p sc (2 * d) t cn col).impacts.map (fun e => e.impact)).sum := rfl
  have h2 : (buildJobResult a ts p sc d t cn col).total_impact
      = ((buildJobResult a ts p sc d t cn col).impacts.map (fun e => e.impact)).sum := rfl
  rw [h1, h2, buildJobResult_double_impacts, List.map_map]
  have hc : ((fun e : ImpactEntry => e.impact) ∘ scaleEntry 2)
      = fun e : ImpactEntry => 2 * e.impact := rfl
  rw [hc, sum_map_impact_scale]

theorem buildBasicResult_double_impacts (a : Analyzer) (v : PyVal) (p : String) (d : ℚ)
    (t : String) (col : List (String × ℚ)) :
    (buildBasicResult a v p (2 * d) t col).impacts
      = (buildBasicResult a v p d t col).impacts.map (scaleEntry 2) := by
  have hfun : basicEntryOf a (2 * d) = fun rc => (basicEntryOf a d rc).map (scaleEntry 2) := by
    funext rc
    cases h : assocLookup rc.1 a.code_to_product with
    | none => simp [basicEntryOf, h]
    | some name =>
      simp only [basicEntryOf, h, Option.map_some]
      have himp : rc.2 * (2 * d) / 1000 = 2 * (rc.2 * d / 1000) := by ring
      simp [scaleEntry, himp]
  have hfm : col.filterMap (basicEntryOf a (2 * d))
      = (col.filterMap (basicEntryOf a d)).map (scaleEntry 2) := by
    rw [List.map_filterMap, hfun]
  rw [buildBasicResult_impacts, buildBasicResult_impacts, hfm]
  exact sortDesc_map (scaleEntry 2) impactKey impactKey impactKey_scaleEntry_iff _

theorem buildBasicResult_double_total (a : Analyzer) (v : PyVal) (p : String) (d : ℚ)
    (t : String) (col : List (String × ℚ)) :
    (buildBasicResult a v p (2 * d) t col).total_impact
      = 2 * (buildBasicResult a v p d t col).total_impact := by
  have h1 : (buildBasicResult a v p (2 * d) t col).total_impact
      = ((buildBasicResult a v p (2 * d) t col).impacts.map (fun e => e.impact)).sum := rfl
  have h2 : (buildBasicResult a v p d t col).total_impact
      = ((buildBasicResult a v p d t col).impacts.map (fun e => e.impact)).sum := rfl
  rw [h1, h2, buildBasicResult_double_impacts, List.map_map]
  have hc : ((fun e : ImpactEntry => e.impact) ∘ scaleEntry 2)
      = fun e : ImpactEntry => 2 * e.impact := rfl
  rw [hc, sum_map_impact_scale]

/-- Observation of the linearity-relevant components of an outcome. -/
def impactView (x : Except PyErr AnalysisResult) : Option (List ImpactEntry × ℚ) :=
  x.toOption.map (fun r => (r.impacts, r.total_impact))

/-- Scaled observation used to state linearity. -/
def scaledImpactView (x : Except PyErr AnalysisResult) : Option (List ImpactEntry × ℚ) :=
  x.toOption.map (fun r => (r.impacts.map (scaleEntry 2), 2 * r.total_impact))

theorem job_double (a : Analyzer) (v : PyVal) (d : ℚ) (t cn : String) :
    impactView (calculate_job_effects a v (2 * d) t cn)
      = scaledImpactView (calculate_job_effects a v d t cn) := by
  unfold calculate_job_effects
  cases h1 : pyvalLookup v a.code_to_product with
  | none => rfl
  | some p =>
    simp only []
    cases h2 : pyvalLookup v a.basic_to_subsector with
    | none => rfl
    | some sc =>
      simp only []
      cases h3 : getCoeffMatrix a t with
      | none => rfl
      | some m =>
        simp only []
        cases h4 : assocLookup sc m.cols with
        | none => rfl
        | some col =>
          simp only [impactView, scaledImpactView, Except.toOption, Option.map_some',
            Option.some.injEq, Prod.mk.injEq]
          exact ⟨buildJobResult_double_impacts a v p sc d t cn col,
            buildJobResult_double_total a v p sc d t cn col⟩

theorem calc_double (a : Analyzer) (v : PyVal) (t : String) (d : ℚ) :
    impactView (calculate_direct_effects a v (2 * d) t)
      = scaledImpactView (calculate_direct_effects a v d t) := by
  cases hin : pyvalInKeys v a.code_to_product with
  | false =>
    rw [calc_not_found a v (2 * d) t hin, calc_not_found a v d t hin]
    rfl
  | true =>
    rw [calc_registered a v (2 * d) t hin, calc_registered a v d t hin]
    cases hm : getCoeffMatrix a t with
    | none => rfl
    | some m =>
      simp only []
      cases hpl : pyvalLookup v a.code_to_product with
      | none => rfl
      | some p =>
        simp only []
        by_cases hj : t = "jobcoeff" ∨ t = "directemploycoeff"
        · rw [if_pos hj, if_pos hj]
          exact job_double a v d t (coeffName t)
        · rw [if_neg hj, if_neg hj]
          cases hcol : pyvalLookup v m.cols with
          | none => rfl
          | some col =>
            simp only [impactView, scaledImpactView, Except.toOption, Option.map_some',
              Option.some.injEq, Prod.mk.injEq]
            exact ⟨buildBasicResult_double_impacts a v p d t col,
              buildBasicResult_double_total a v p d t col⟩

theorem raises_job_false (a : Analyzer) (v : PyVal) (d : ℚ) (t cn : String) :
    raisesSectorNotFound (calculate_job_effects a v d t cn) = false := by
  unfold calculate_job_effects
  cases h1 : pyvalLookup v a.code_to_product with
  | none => rfl
  | some p =>
    simp only []
    cases h2 : pyvalLookup v a.basic_to_subsector with
    | none => rfl
    | some sc =>
      simp only []
      cases h3 : getCoeffMatrix a t with
      | none => rfl
      | some m =>
        simp only []
        cases h4 : assocLookup sc m.cols with
        | none => rfl
        | some col => rfl

theorem raisesSectorNotFound_iff (a : Analyzer) (v : PyVal) (d : ℚ) (t : String) :
    raisesSectorNotFound (calculate_direct_effects a v d t)
      = !(pyvalInKeys v a.code_to_product) := by
  cases hin : pyvalInKeys v a.code_to_product with
  | false =>
    rw [calc_not_found a v d t hin]
    rfl
  | true =>
    rw [calc_registered a v d t hin]
    cases hm : getCoeffMatrix a t with
    | none => rfl
    | some m =>
      simp only []
      cases hpl : pyvalLookup v a.code_to_product with
      | none => rfl
      | some p =>
        simp only []
        by_cases hj : t = "jobcoeff" ∨ t = "directemploycoeff"
        · rw [if_pos hj]
          rw [raises_job_false]
          rfl
        · rw [if_neg hj]
          cases hcol : pyvalLookup v m.cols with
          | none => rfl
          | some col => rfl

theorem runScenarios_ok (a : Analyzer) (s : String) (t : String) (ds : List ℚ)
    (scs : List Scenario) (h : runScenarios a s t ds = Except.ok scs) :
    scs.length = ds.length ∧
    ∀ i : Nat, ∀ h1 : i < ds.length, ∀ h2 : i < scs.length,
      ∃ res, calculate_direct_effects a (PyVal.pstr s) (ds.get ⟨i, h1⟩) t = Except.ok res ∧
        scs.get ⟨i, h2⟩ = mkScenario (ds.get ⟨i, h1⟩) res := by
  induction ds generalizing scs with
  | nil =>
    unfold runScenarios at h
    have hscs : scs = [] := by
      cases scs with
      | nil => rfl
      | cons x xs => simp at h
    subst hscs
    refine ⟨rfl, ?_⟩
    intro i h1 h2
    simp at h1
  | cons d rest ih =>
    unfold runScenarios at h
    cases hc : calculate_direct_effects a (PyVal.pstr s) d t with
    | error e => rw [hc] at h; simp at h
    | ok res =>
      rw [hc] at h
      simp only [] at h
      cases hr : runScenarios a s t rest with
      | error e => rw [hr] at h; simp at h
      | ok tail =>
        rw [hr] at h
        simp only [Except.ok.injEq] at h
        obtain ⟨hlen, hrest⟩ := ih tail hr
        subst h
        constructor
        · simp [hlen]
        · intro i h1 h2
          cases i with
          | zero => exact ⟨res, hc, rfl⟩
          | succ j =>
            have hj1 : j < rest.length := by simpa using h1
            have hj2 : j < tail.length := by simpa using h2
            exact hrest j hj1 hj2

/-- Total impact accumulated across aggregated categories. -/
def aggImpactSum (l : List AggEntry) : ℚ := (l.map (fun g => g.impact)).sum

/-- Total sector count accumulated across aggregated categories. -/
def aggCountSum (l : List AggEntry) : Nat := (l.map (fun g => g.sector_count)).sum

/-- An impact entry contributes to the aggregation iff its cascaded category
resolution yields a truthy `code_h`. -/
def includedEntry (a : Analyzer) (isJob : Bool) (e : ImpactEntry) : Bool :=
  (resolveContrib a isJob e.sector_code).isSome

/-- Accumulated impact recorded for one category key. -/
def catImpact (l : List AggEntry) (ch : PyVal) : ℚ :=
  ((l.filter (fun g => decide (g.code_h = ch))).map (fun g => g.impact)).sum

/-- Accumulated sector count recorded for one category key. -/
def catCount (l : List AggEntry) (ch : PyVal) : Nat :=
  ((l.filter (fun g => decide (g.code_h = ch))).map (fun g => g.sector_count)).sum

theorem upsertAgg_sum (a : Analyzer) (ch : PyVal) (v : ℚ) (acc : List AggEntry) :
    aggImpactSum (upsertAgg a ch v acc) = aggImpactSum acc + v := by
  induction acc with
  | nil => simp [upsertAgg, aggImpactSum]
  | cons e rest ih =>
    unfold upsertAgg
    by_cases h : e.code_h = ch
    · rw [if_pos h]
      simp only [aggImpactSum, List.map_cons, List.sum_cons]
      ring
    · rw [if_neg h]
      simp only [aggImpactSum, List.map_cons, List.sum_cons]
      unfold aggImpactSum at ih
      rw [ih]
      ring

theorem upsertAgg_count (a : Analyzer) (ch : PyVal) (v : ℚ) (acc : List AggEntry) :
    aggCountSum (upsertAgg a ch v acc) = aggCountSum acc + 1 := by
  induction acc with
  | nil => simp [upsertAgg, aggCountSum]
  | cons e rest ih =>
    unfold upsertAgg
    by_cases h : e.code_h = ch
    · rw [if_pos h]
      simp only [aggCountSum, List.map_cons, List.sum_cons]
      omega
    · rw [if_neg h]
      simp only [aggCountSum, List.map_cons, List.sum_cons]
      unfold aggCountSum at ih
      rw [ih]
      omega

theorem upsertAgg_catImpact (a : Analyzer) (ch : PyVal) (v : ℚ) (acc : List AggEntry)
    (ch2 : PyVal) :
    catImpact (upsertAgg a ch v acc) ch2
      = catImpact acc ch2 + (if ch = ch2 then v else 0) := by
  induction acc with
  | nil =>
    by_cases hc : ch = ch2
    · simp [upsertAgg, catImpact, hc]
    · simp [upsertAgg, catImpact, hc]
  | cons e rest ih =>
    unfold upsertAgg
    by_cases h1 : e.code_h = ch
    · rw [if_pos h1]
      by_cases h2 : e.code_h = ch2
      · have hcc : ch = ch2 := h1 ▸ h2
        simp only [catImpact, List.filter_cons, h2, decide_True, if_true, List.map_cons, List.sum_cons,
          if_pos hcc]
        ring
      · have hcc : ¬(ch = ch2) := fun hx => h2 (hx ▸ h1)
        simp only [catImpact, List.filter_cons, h2, decide_False, Bool.false_eq_true, if_false,
          if_neg hcc]
        ring
    · rw [if_neg h1]
      by_cases h2 : e.code_h = ch2
      · simp only [catImpact, List.filter_cons, h2, decide_True, if_true, List.map_cons, List.sum_cons]
        unfold catImpact at ih
        rw [ih]
        ring
      · simp only [catImpact, List.filter_cons, h2, decide_False, Bool.false_eq_true, if_false]
        unfold catImpact at ih
        rw [ih]

theorem upsertAgg_catCount (a : Analyzer) (ch : PyVal) (v : ℚ) (acc : List AggEntry)
    (ch2 : PyVal) :
    catCount (upsertAgg a ch v acc) ch2
      = catCount acc ch2 + (if ch = ch2 then 1 else 0) := by
  induction acc with
  | nil =>
    by_cases hc : ch = ch2
    · simp [upsertAgg, catCount, hc]
    · simp [upsertAgg, catCount, hc]
  | cons e rest ih =>
    unfold upsertAgg
    by_cases h1 : e.code_h = ch
    · rw [if_pos h1]
      by_cases h2 : e.code_h = ch2
      · have hcc : ch = ch2 := h1 ▸ h2
        simp only [catCount, List.filter_cons, h2, decide_True, if_true, List.map_cons, List.sum_cons,
          if_pos hcc]
        omega
      · have hcc : ¬(ch = ch2) := fun hx => h2 (hx ▸ h1)
        simp only [catCount, List.filter_cons, h2, decide_False, Bool.false_eq_true, if_false,
          if_neg hcc]
        omega
    · rw [if_neg h1]
      by_cases h2 : e.code_h = ch2
      · simp only [catCount, List.filter_cons, h2, decide_True, if_true, List.map_cons, List.sum_cons]
        unfold catCount at ih
        rw [ih]
        omega
      · simp only [catCount, List.filter_cons, h2, decide_False, Bool.false_eq_true, if_false]
        unfold catCount at ih
        rw [ih]

theorem aggFold_sum (a : Analyzer) (isJob : Bool) (l : List ImpactEntry)
    (acc : List AggEntry) :
    aggImpactSum (aggFold a isJob acc l)
      = aggImpactSum acc + ((l.filter (includedEntry a isJob)).map (fun e => e.impact)).sum := by
  induction l generalizing acc with
  | nil => simp [aggFold]
  | cons e rest ih =>
    unfold aggFold
    cases hrc : resolveContrib a isJob e.sector_code with
    | some ch =>
      have hinc : includedEntry a isJob e = true := by simp [includedEntry, hrc]
      simp only [List.filter_cons, hinc, if_true, List.map_cons, List.sum_cons]
      rw [ih, upsertAgg_sum]
      ring
    | none =>
      have hinc : includedEntry a isJob e = false := by simp [includedEntry, hrc]
      simp only [List.filter_cons, hinc, Bool.false_eq_true, if_false]
      exact ih acc

theorem aggFold_count (a : Analyzer) (isJob : Bool) (l : List ImpactEntry)
    (acc : List AggEntry) :
    aggCountSum (aggFold a isJob acc l)
      = aggCountSum acc + (l.filter (includedEntry a isJob)).length := by
  induction l generalizing acc with
  | nil => simp [aggFold]
  | cons e rest ih =>
    unfold aggFold
    cases hrc : resolveContrib a isJob e.sector_code with
    | some ch =>
      have hinc : includedEntry a isJob e = true := by simp [includedEntry, hrc]
      simp only [List.filter_cons, hinc, if_true, List.length_cons]
      rw [ih, upsertAgg_count]
      omega
    | none =>
      have hinc : includedEntry a isJob e = false := by simp [includedEntry, hrc]
      simp only [List.filter_cons, hinc, Bool.false_eq_true, if_false]
      exact ih acc

theorem aggFold_catImpact (a : Analyzer) (isJob : Bool) (l : List ImpactEntry)
    (acc : List AggEntry) (ch : PyVal) :
    catImpact (aggFold a isJob acc l) ch
      = catImpact acc ch
        + ((l.filter (fun e => decide (resolveContrib a isJob e.sector_code = some ch))).map
            (fun e => e.impact)).sum := by
  induction l generalizing acc with
  | nil => simp [aggFold]
  | cons e rest ih =>
    unfold aggFold
    cases hrc : resolveContrib a isJob e.sector_code with
    | some ch0 =>
      by_cases hc : ch0 = ch
      · have hd : decide (resolveContrib a isJob e.sector_code = some ch) = true := by
          simp [hrc, hc]
        simp only [List.filter_cons, hd, if_true, List.map_cons, List.sum_cons]
        rw [ih, upsertAgg_catImpact, if_pos hc]
        ring
      · have hd : decide (resolveContrib a isJob e.sector_code = some ch) = false := by
          simp [hrc, hc]
        simp only [List.filter_cons, hd, Bool.false_eq_true, if_false]
        rw [ih, upsertAgg_catImpact, if_neg hc]
        ring
    | none =>
      have hd : decide (resolveContrib a isJob e.sector_code = some ch) = false := by
        simp [hrc]
      simp only [List.filter_cons, hd, Bool.false_eq_true, if_false]
      exact ih acc

theorem aggFold_catCount (a : Analyzer) (isJob : Bool) (l : List ImpactEntry)
    (acc : List AggEntry) (ch : PyVal) :
    catCount (aggFold a isJob acc l) ch
      = catCount acc ch
        + (l.filter (fun e => decide (resolveContrib a isJob e.sector_code = some ch))).length := by
  induction l generalizing acc with
  | nil => simp [aggFold]
  | cons e rest ih =>
    unfold aggFold
    cases hrc : resolveContrib a isJob e.sector_code with
    | some ch0 =>
      by_cases hc : ch0 = ch
      · have hd : decide (resolveContrib a isJob e.sector_code = some ch) = true := by
          simp [hrc, hc]
        simp only [List.filter_cons, hd, if_true, List.length_cons]
        rw [ih, upsertAgg_catCount, if_pos hc]
        omega
      · have hd : decide (resolveContrib a isJob e.sector_code = some ch) = false := by
          simp [hrc, hc]
        simp only [List.filter_cons, hd, Bool.false_eq_true, if_false]
        rw [ih, upsertAgg_catCount, if_neg hc]
        omega
    | none =>
      have hd : decide (resolveContrib a isJob e.sector_code = some ch) = false := by
        simp [hrc]
      simp only [List.filter_cons, hd, Bool.false_eq_true, if_false]
      exact ih acc

theorem aggImpactSum_sortDesc (l : List AggEntry) :
    aggImpactSum (sortDesc aggKey l) = aggImpactSum l := by
  unfold aggImpactSum
  exact ((sortDesc_perm aggKey l).map (fun g => g.impact)).sum_eq

theorem aggCountSum_sortDesc (l : List AggEntry) :
    aggCountSum (sortDesc aggKey l) = aggCountSum l := by
  unfold aggCountSum
  exact ((sortDesc_perm aggKey l).map (fun g => g.sector_count)).sum_eq

theorem catImpact_sortDesc (l : List AggEntry) (ch : PyVal) :
    catImpact (sortDesc aggKey l) ch = catImpact l ch := by
  unfold catImpact
  exact (((sortDesc_perm aggKey l).filter _).map (fun g => g.impact)).sum_eq

theorem catCount_sortDesc (l : List AggEntry) (ch : PyVal) :
    catCount (sortDesc aggKey l) ch = catCount l ch := by
  unfold catCount
  exact (((sortDesc_perm aggKey l).filter _).map (fun g => g.sector_count)).sum_eq

theorem filter_partition_perm {α : Type} (b f : α → Bool) (l : List α) :
    List.Perm
      (l.filter (fun x => b x && f x)
        ++ (l.filter (fun x => b x && !(f x))
          ++ (l.filter (fun x => !(b x) && f x)
            ++ l.filter (fun x => !(b x) && !(f x))))) l := by
  induction l with
  | nil => simp
  | cons a t ih =>
    cases hb : b a with
    | true =>
      cases hf : f a with
      | true =>
        simp only [List.filter_cons, hb, hf, Bool.and_true, Bool.not_true, Bool.and_false,
          Bool.true_and, Bool.false_and, if_true, Bool.false_eq_true, if_false]
        exact ih.cons a
      | false =>
        simp only [List.filter_cons, hb, hf, Bool.and_true, Bool.and_false, Bool.not_true,
          Bool.not_false, Bool.true_and, Bool.false_and, if_true, Bool.false_eq_true, if_false]
        rw [List.cons_append]
        exact List.perm_middle.trans (ih.cons a)
    | false =>
      cases hf : f a with
      | true =>
        simp only [List.filter_cons, hb, hf, Bool.and_true, Bool.and_false, Bool.not_true,
          Bool.not_false, Bool.true_and, Bool.false_and, if_true, Bool.false_eq_true, if_false]
        rw [List.cons_append]
        have h2 : List.Perm
            (t.filter (fun x => b x && !(f x))
              ++ (a :: (t.filter (fun x => !(b x) && f x)
                ++ t.filter (fun x => !(b x) && !(f x)))))
            (a :: (t.filter (fun x => b x && !(f x))
              ++ (t.filter (fun x => !(b x) && f x)
                ++ t.filter (fun x => !(b x) && !(f x))))) := List.perm_middle
        have h3 := h2.append_left (t.filter (fun x => b x && f x))
        refine h3.trans ?_
        exact List.perm_middle.trans (ih.cons a)
      | false =>
        simp only [List.filter_cons, hb, hf, Bool.and_true, Bool.and_false, Bool.not_true,
          Bool.not_false, Bool.true_and, Bool.false_and, if_true, Bool.false_eq_true, if_false]
        have h1 : List.Perm
            (t.filter (fun x => !(b x) && f x)
              ++ (a :: t.filter (fun x => !(b x) && !(f x))))
            (a :: (t.filter (fun x => !(b x) && f x)
              ++ t.filter (fun x => !(b x) && !(f x)))) := List.perm_middle
        have h2 := h1.append_left (t.filter (fun x => b x && !(f x)))
        have h3 : List.Perm
            (t.filter (fun x => b x && !(f x))
              ++ (a :: (t.filter (fun x => !(b x) && f x)
                ++ t.filter (fun x => !(b x) && !(f x)))))
            (a :: (t.filter (fun x => b x && !(f x))
              ++ (t.filter (fun x => !(b x) && f x)
                ++ t.filter (fun x => !(b x) && !(f x))))) := List.perm_middle
        have h4 := (h2.trans h3).append_left (t.filter (fun x => b x && f x))
        refine h4.trans ?_
        exact List.perm_middle.trans (ih.cons a)

/-- An empty coefficient matrix (used to fill unused slots of small test
states). -/
def matEmpty : Mat := Mat.mk [] []

/-- A small plausible loaded state: two registered basic sectors, one
sub-sector, integer-valued coefficients. -/
def A1 : Analyzer :=
  { code_to_product := [("0111", "Rice"), ("2711", "Electric power")]
    subsector_to_name := [("003", "Farming")]
    basic_to_subsector := [("0111", "003")]
    basic_to_code_h := [("0111", PyVal.pint 1), ("2711", PyVal.pint 2)]
    subsector_to_code_h := [("003", PyVal.pint 1)]
    code_h_to_product_h := [(PyVal.pint 1, "Agriculture"), (PyVal.pint 2, "Energy")]
    indirect_prod := Mat.mk ["0111", "2711"]
      [("0111", [("0111", 2), ("2711", 1)]), ("2711", [("0111", 0), ("2711", 3)])]
    indirect_import := Mat.mk ["0111", "2711"]
      [("0111", [("0111", 1), ("2711", 0)]), ("2711", [("0111", 0), ("2711", 1)])]
    value_added := Mat.mk ["0111", "2711"]
      [("0111", [("0111", 1), ("2711", 0)]), ("2711", [("0111", 0), ("2711", 1)])]
    jobcoeff := Mat.mk ["003"] [("003", [("003", 5)])]
    directemploycoeff := Mat.mk ["003"] [("003", [("003", 4)])] }

/-- A loaded state whose `indirect_prod` matrix contains a row code
(`"9999"`) that is absent from the basic-sector registry: coefficient
sheets and the `basicmap` sheet are independent, so such rows are
reachable from the data file (the source's membership guard exists
precisely for them). -/
def A3 : Analyzer :=
  { code_to_product := [("0111", "Rice")]
    subsector_to_name := []
    basic_to_subsector := []
    basic_to_code_h := [("0111", PyVal.pint 1)]
    subsector_to_code_h := []
    code_h_to_product_h := [(PyVal.pint 1, "Agriculture")]
    indirect_prod := Mat.mk ["0111", "9999"]
      [("0111", [("0111", 1), ("9999", 1)])]
    indirect_import := matEmpty
    value_added := matEmpty
    jobcoeff := matEmpty
    directemploycoeff := matEmpty }

/-- A loaded state for the aggregation counterexample: the code `"abc"` is
absent from the sub-sector-to-category map but present in the
basic-to-category map. -/
def A4 : Analyzer :=
  { code_to_product := [("0111", "Rice")]
    subsector_to_name := []
    basic_to_subsector := [("0111", "003")]
    basic_to_code_h := [("abc", PyVal.pint 7)]
    subsector_to_code_h := []
    code_h_to_product_h := [(PyVal.pint 7, "Misc")]
    indirect_prod := matEmpty
    indirect_import := matEmpty
    value_added := matEmpty
    jobcoeff := matEmpty
    directemploycoeff := matEmpty }

/-- A loaded state for the employment-dispatch counterexample: `"0111"` is
registered and mapped to the sub-sector `"003"`, but the job-coefficient
matrix has no `"003"` column (the `jobcoeff` sheet and the `codemap` sheet
are independent, so such a state is reachable from the data file; the
source's membership check at io_analyzer.py:288 exists for it). -/
def A5 : Analyzer :=
  { code_to_product := [("0111", "Rice")]
    subsector_to_name := []
    basic_to_subsector := [("0111", "003")]
    basic_to_code_h := [("0111", PyVal.pint 1)]
    subsector_to_code_h := [("003", PyVal.pint 1)]
    code_h_to_product_h := [(PyVal.pint 1, "Agriculture")]
    indirect_prod := matEmpty
    indirect_import := matEmpty
    value_added := matEmpty
    jobcoeff := Mat.mk ["005"] [("005", [("005", 5)])]
    directemploycoeff := matEmpty }

/-- A job-coefficient analysis result (it carries a `subsector_code`) with a
single impact entry whose row code resolves only through the basic map. -/
def R4 : AnalysisResult :=
  { target_sector := PyVal.pstr "0111"
    target_product := "Rice"
    subsector_code := some "003"
    demand_change := 1000
    coeff_type := "jobcoeff"
    coeff_name := "Total Job Creation"
    impacts := [ImpactEntry.mk "abc" "X" 1]
    total_impact := 1
    num_affected_sectors := 1 }

/-- Category resolvability read off the claim's wording: for a result that
carries a `subsector_code`, the appropriate mapping is the
sub-sector-to-category map; otherwise the basic-to-category map.  This
follows the specification text, for comparison against the source's
cascaded lookup `resolveCodeH`. -/
def specAppropriateResolvable (a : Analyzer) (r : AnalysisResult) (e : ImpactEntry) : Bool :=
  if r.subsector_code.isSome then (assocLookup e.sector_code a.subsector_to_code_h).isSome
  else (assocLookup e.sector_code a.basic_to_code_h).isSome

/-- C5 (amended): the basic-code formatter is idempotent for every string
(hence every `str(int)` image) input; it pads the whitespace-trimmed
3-character numeric form with a leading zero; every other input is returned
in its whitespace-trimmed string form (the source strips surrounding
whitespace first, so non-numeric input is passed through only after
trimming); concretely `"111" ↦ "0111"`, `"0111" ↦ "0111"`, and the integer
`2711 ↦ "2711"`. -/
theorem C5_normalization_amended :
    (∀ s : String, format_code (format_code s) = format_code s)
    ∧ (∀ s : String, (pyIsdigitL (pyStripL s.data) && (pyStripL s.data).length == 3) = true →
        format_code s = String.mk ('0' :: pyStripL s.data))
    ∧ (∀ s : String, (pyIsdigitL (pyStripL s.data) && (pyStripL s.data).length == 3) = false →
        format_code s = String.mk (pyStripL s.data))
    ∧ format_code "111" = "0111"
    ∧ format_code "0111" = "0111"
    ∧ format_code_of_int 2711 = "2711" := by
  refine ⟨format_code_idem, ?_, ?_, by decide, by decide, by decide⟩
  · intro s h
    unfold format_code format_code_core
    rw [h]
    simp
  · intro s h
    unfold format_code format_code_core
    rw [h]
    simp

/-- C5 counterexample: the claim says non-numeric input is passed through
unchanged, but the formatter strips surrounding whitespace: `" abc "` is
non-numeric yet maps to `"abc"`, not to itself. -/
theorem C5_counterexample :
    pyIsdigitL (" abc " : String).data = false
    ∧ format_code " abc " = "abc"
    ∧ format_code " abc " ≠ " abc " := by
  refine ⟨by decide, by decide, by decide⟩

/-- C5 witness: the idempotence conjunct applied at `" 42 "`, and the
padding conjunct applied at `"111"`. -/
theorem C5_witness :
    format_code (format_code " 42 ") = format_code " 42 "
    ∧ format_code "111" = String.mk ('0' :: pyStripL ("111" : String).data) := by
  exact ⟨C5_normalization_amended.1 " 42 ", C5_normalization_amended.2.1 "111" (by decide)⟩

/-- C2 (amended): `calculate_direct_effects` applies no basic-code
normalization to `target_sector`; it raises the sector-not-found error if
and only if the value itself is absent from the `code_to_product`
dictionary (every key of which is a string, so the source's
integer-conversion fallback can never match). -/
theorem C2_sector_lookup_amended (a : Analyzer) (v : PyVal) (d : ℚ) (t : String) :
    raisesSectorNotFound (calculate_direct_effects a v d t)
      = !(pyvalInKeys v a.code_to_product) :=
  raisesSectorNotFound_iff a v d t

/-- C2 counterexample: with `"0111"` registered, calling with the 3-digit
string `"111"` raises sector-not-found even though its normalized
(`format_code`) form is present — the function does not normalize. -/
theorem C2_counterexample :
    format_code "111" = "0111"
    ∧ assocLookup "0111" A1.code_to_product = some "Rice"
    ∧ calculate_direct_effects A1 (PyVal.pstr "111") 1000 "indirect_prod"
        = Except.error (PyErr.sectorNotFound (PyVal.pstr "111"))
    ∧ ¬(raisesSectorNotFound
          (calculate_direct_effects A1 (PyVal.pstr "111") 1000 "indirect_prod") = true
        ↔ assocLookup (format_code "111") A1.code_to_product = none) := by
  refine ⟨by decide, by decide, ?_, by decide⟩
  apply calc_not_found
  decide

/-- C10: an integer `target_sector` always raises the sector-not-found
error: the code-to-product keys are all strings, so neither the membership
test on the value nor the one on its integer form can succeed. -/
theorem C10_int_always_not_found (a : Analyzer) (n : Int) (d : ℚ) (t : String) :
    calculate_direct_effects a (PyVal.pint n) d t
      = Except.error (PyErr.sectorNotFound (PyVal.pint n)) := by
  apply calc_not_found
  apply pyvalInKeys_eq_false_of_ne_pstr
  intro s
  simp

/-- C6: scaling linearity of `calculate_direct_effects` in the demand
change: doubling the demand yields the same outcome with every per-entry
impact and the total impact multiplied by 2 (and identical failures on the
error paths, which do not depend on the demand). -/
theorem C6_scaling_linearity (a : Analyzer) (v : PyVal) (t : String) (d : ℚ) :
    impactView (calculate_direct_effects a v (2 * d) t)
      = scaledImpactView (calculate_direct_effects a v d t) :=
  calc_double a v t d

/-- C7: `calculate_all_effects` attempts exactly the five coefficient
types; each type's slot holds the standalone `calculate_direct_effects`
outcome converted to an option, so a raised exception stores an absent
slot while every non-failing type's slot holds the standalone result. -/
theorem C7_batch_isolation (a : Analyzer) (v : PyVal) (d : ℚ) :
    (calculate_all_effects a v d).map Prod.fst = coefficient_types
    ∧ (∀ t, t ∈ coefficient_types →
        assocLookup t (calculate_all_effects a v d)
          = some ((calculate_direct_effects a v d t).toOption))
    ∧ (∀ t e, t ∈ coefficient_types →
        calculate_direct_effects a v d t = Except.error e →
        assocLookup t (calculate_all_effects a v d) = some none)
    ∧ (∀ t r, t ∈ coefficient_types →
        calculate_direct_effects a v d t = Except.ok r →
        assocLookup t (calculate_all_effects a v d) = some (some r)) := by
  have hslot : ∀ t, t ∈ coefficient_types →
      assocLookup t (calculate_all_effects a v d)
        = some ((calculate_direct_effects a v d t).toOption) := by
    intro t ht
    simp only [coefficient_types, List.mem_cons, List.mem_singleton] at ht
    rcases ht with h | h | h | h | h | h
    · subst h; rfl
    · subst h; rfl
    · subst h; rfl
    · subst h; rfl
    · subst h; rfl
    · simp at h
  refine ⟨?_, hslot, ?_, ?_⟩
  · simp [calculate_all_effects, List.map_map]
    rfl
  · intro t e ht hcalc
    rw [hslot t ht, hcalc]
    rfl
  · intro t r ht hcalc
    rw [hslot t ht, hcalc]
    rfl

/-- C7 witness: the batch at a concrete state and sector lists exactly the
five coefficient types in order. -/
theorem C7_witness :
    (calculate_all_effects A1 (PyVal.pstr "0111") 1000).map Prod.fst = coefficient_types :=
  (C7_batch_isolation A1 (PyVal.pstr "0111") 1000).1

theorem getCoeffMatrix_isSome_of_job (a : Analyzer) (t : String)
    (ht : t = "jobcoeff" ∨ t = "directemploycoeff") :
    (getCoeffMatrix a t).isSome = true := by
  rcases ht with h | h
  · subst h; rfl
  · subst h; rfl

/-- C1 (amended): for a registered basic sector with a sub-sector mapping
and an employment coefficient type, `calculate_direct_effects` fetches the
coefficient column at the mapped sub-sector code, never at the basic code:
when that column exists, the call raises no error, the result's impact
list is the sub-sector column scaled entrywise by `d / 1000`, and
`subsector_code` equals the mapped sub-sector; when the mapped column is
absent from the matrix, the call fails with the column-not-found error
(not claimed error-free); when the sub-sector mapping itself is absent,
the call fails with the sub-sector-mapping-missing error. -/
theorem C1_employment_dispatch_amended (a : Analyzer) (s p t : String) (d : ℚ)
    (ht : t = "jobcoeff" ∨ t = "directemploycoeff")
    (hreg : assocLookup s a.code_to_product = some p) :
    (∀ sc, assocLookup s a.basic_to_subsector = some sc →
      ∀ m col, getCoeffMatrix a t = some m → assocLookup sc m.cols = some col →
        calculate_direct_effects a (PyVal.pstr s) d t
          = Except.ok (buildJobResult a (PyVal.pstr s) p sc d t (coeffName t) col)
        ∧ (buildJobResult a (PyVal.pstr s) p sc d t (coeffName t) col).subsector_code = some sc
        ∧ List.Perm (buildJobResult a (PyVal.pstr s) p sc d t (coeffName t) col).impacts
            (col.map (jobEntryOf a d))
        ∧ (buildJobResult a (PyVal.pstr s) p sc d t (coeffName t) col).total_impact
            = d / 1000 * (col.map (fun rc => rc.2)).sum)
    ∧ (∀ sc, assocLookup s a.basic_to_subsector = some sc →
      ∀ m, getCoeffMatrix a t = some m → assocLookup sc m.cols = none →
        calculate_direct_effects a (PyVal.pstr s) d t
          = Except.error PyErr.columnNotFound)
    ∧ (assocLookup s a.basic_to_subsector = none →
        calculate_direct_effects a (PyVal.pstr s) d t
          = Except.error (PyErr.subsectorMappingMissing (PyVal.pstr s))) := by
  refine ⟨?_, ?_, ?_⟩
  · intro sc hsc m col hm hcol
    have hdisp := calc_eq_job a s d t p hreg (getCoeffMatrix_isSome_of_job a t ht) ht
    have heval := job_eval a s d t (coeffName t) p sc m col hreg hsc hm hcol
    exact ⟨hdisp.trans heval, rfl, buildJobResult_perm a (PyVal.pstr s) p sc d t (coeffName t) col,
      buildJobResult_total a (PyVal.pstr s) p sc d t (coeffName t) col⟩
  · intro sc hsc m hm hcol
    have hdisp := calc_eq_job a s d t p hreg (getCoeffMatrix_isSome_of_job a t ht) ht
    exact hdisp.trans (job_col_missing a s d t (coeffName t) p sc m hreg hsc hm hcol)
  · intro hnone
    have hdisp := calc_eq_job a s d t p hreg (getCoeffMatrix_isSome_of_job a t ht) ht
    exact hdisp.trans (job_missing a s d t (coeffName t) p hreg hnone)

/-- C1 counterexample: in state `A5` the sector `"0111"` is registered and
mapped to sub-sector `"003"`, yet the `jobcoeff` matrix has no `"003"`
column, so the call raises (the column-not-found `ValueError` of
io_analyzer.py:288-289) — refuting the original claim that every mapped
registered sector raises no error. -/
theorem C1_counterexample :
    assocLookup "0111" A5.code_to_product = some "Rice"
    ∧ assocLookup "0111" A5.basic_to_subsector = some "003"
    ∧ assocLookup "003" A5.jobcoeff.cols = none
    ∧ calculate_direct_effects A5 (PyVal.pstr "0111") 1000 "jobcoeff"
        = Except.error PyErr.columnNotFound
    ∧ ¬(exceptIsOk (calculate_direct_effects A5 (PyVal.pstr "0111") 1000 "jobcoeff") = true) := by
  refine ⟨by decide, by decide, by decide, ?_, by decide⟩
  have hdisp := calc_eq_job A5 "0111" 1000 "jobcoeff" "Rice" (by decide) rfl (Or.inl rfl)
  exact hdisp.trans
    (job_col_missing A5 "0111" 1000 "jobcoeff" (coeffName "jobcoeff") "Rice" "003" A5.jobcoeff
      (by decide) (by decide) rfl (by decide))

/-- C1 witness: a concrete registered sector with sub-sector mapping:
`"0111"` maps to `"003"`, the `jobcoeff` column is fetched at `"003"`, and
the result's `subsector_code` is `"003"`. -/
theorem C1_witness :
    calculate_direct_effects A1 (PyVal.pstr "0111") 500 "jobcoeff"
      = Except.ok (buildJobResult A1 (PyVal.pstr "0111") "Rice" "003" 500 "jobcoeff"
          (coeffName "jobcoeff") [("003", 5)])
    ∧ (buildJobResult A1 (PyVal.pstr "0111") "Rice" "003" 500 "jobcoeff"
        (coeffName "jobcoeff") [("003", 5)]).subsector_code = some "003" := by
  have h := C1_employment_dispatch_amended A1 "0111" "Rice" "jobcoeff" 500 (Or.inl rfl)
    (by decide)
  obtain ⟨heq, hsub, hperm, htot⟩ :=
    h.1 "003" (by decide) A1.jobcoeff [("003", 5)] rfl (by decide)
  exact ⟨heq, hsub⟩

theorem buildJobResult_len (a : Analyzer) (ts : PyVal) (p sc : String) (d : ℚ)
    (t cn : String) (col : List (String × ℚ)) :
    (buildJobResult a ts p sc d t cn col).impacts.length = col.length := by
  have h := (buildJobResult_perm a ts p sc d t cn col).length_eq
  simpa using h

theorem buildBasicResult_len (a : Analyzer) (v : PyVal) (p : String) (d : ℚ)
    (t : String) (col : List (String × ℚ)) :
    (buildBasicResult a v p d t col).impacts.length
      = (col.filter (rowRegistered a)).length := by
  have h := (buildBasicResult_perm a v p d t col).length_eq
  rw [h, basic_len_aux]

/-- C3 (amended): for a registered sector and available coefficient type,
the result of `calculate_direct_effects` is, for the employment types, one
impact entry per row of the fetched sub-sector column (unregistered row
codes get the synthesized fallback label, no row is dropped) with
`total_impact = (d/1000) ·` (sum of the column); for the basic types,
however, rows whose code has no registered product name are dropped, so the
result has one entry per registered row only, and `total_impact` is
`(d/1000) ·` (sum over the registered rows only). -/
theorem C3_result_shape_amended (a : Analyzer) (s p t : String) (d : ℚ) (m : Mat)
    (hp : assocLookup s a.code_to_product = some p)
    (hm : getCoeffMatrix a t = some m) :
    ((t = "jobcoeff" ∨ t = "directemploycoeff") →
      ∀ sc col, assocLookup s a.basic_to_subsector = some sc →
        assocLookup sc m.cols = some col →
        calculate_direct_effects a (PyVal.pstr s) d t
          = Except.ok (buildJobResult a (PyVal.pstr s) p sc d t (coeffName t) col)
        ∧ (buildJobResult a (PyVal.pstr s) p sc d t (coeffName t) col).impacts.length
            = col.length
        ∧ List.Perm (buildJobResult a (PyVal.pstr s) p sc d t (coeffName t) col).impacts
            (col.map (jobEntryOf a d))
        ∧ (buildJobResult a (PyVal.pstr s) p sc d t (coeffName t) col).total_impact
            = d / 1000 * (col.map (fun rc => rc.2)).sum)
    ∧ (¬(t = "jobcoeff" ∨ t = "directemploycoeff") →
      ∀ col, assocLookup s m.cols = some col →
        calculate_direct_effects a (PyVal.pstr s) d t
          = Except.ok (buildBasicResult a (PyVal.pstr s) p d t col)
        ∧ (buildBasicResult a (PyVal.pstr s) p d t col).impacts.length
            = (col.filter (rowRegistered a)).length
        ∧ List.Perm (buildBasicResult a (PyVal.pstr s) p d t col).impacts
            (col.filterMap (basicEntryOf a d))
        ∧ (buildBasicResult a (PyVal.pstr s) p d t col).total_impact
            = d / 1000 * ((col.filter (rowRegistered a)).map (fun rc => rc.2)).sum) := by
  constructor
  · intro hjob sc col hsc hcol
    have hdisp := calc_eq_job a s d t p hp (by rw [hm]; rfl) hjob
    have heval := job_eval a s d t (coeffName t) p sc m col hp hsc hm hcol
    exact ⟨hdisp.trans heval, buildJobResult_len a (PyVal.pstr s) p sc d t (coeffName t) col,
      buildJobResult_perm a (PyVal.pstr s) p sc d t (coeffName t) col,
      buildJobResult_total a (PyVal.pstr s) p sc d t (coeffName t) col⟩
  · intro hnj col hcol
    have heval := calc_eq_basic a s d t p m col hp hm hnj hcol
    exact ⟨heval, buildBasicResult_len a (PyVal.pstr s) p d t col,
      buildBasicResult_perm a (PyVal.pstr s) p d t col,
      buildBasicResult_total a (PyVal.pstr s) p d t col⟩

/-- C3 witness: the basic branch at a concrete state; the `indirect_prod`
column of `"0111"` in `A1` has two rows, both registered, so the result
keeps both entries. -/
theorem C3_witness :
    calculate_direct_effects A1 (PyVal.pstr "0111") 1000 "indirect_prod"
      = Except.ok (buildBasicResult A1 (PyVal.pstr "0111") "Rice" 1000 "indirect_prod"
          [("0111", 2), ("2711", 1)])
    ∧ (buildBasicResult A1 (PyVal.pstr "0111") "Rice" 1000 "indirect_prod"
        [("0111", 2), ("2711", 1)]).impacts.length
      = ([("0111", (2 : ℚ)), ("2711", 1)].filter (rowRegistered A1)).length := by
  have h := C3_result_shape_amended A1 "0111" "Rice" "indirect_prod" 1000 A1.indirect_prod
    (by decide) rfl
  obtain ⟨heq, hlen, hperm, htot⟩ :=
    h.2 (by decide) [("0111", 2), ("2711", 1)] (by decide)
  exact ⟨heq, hlen⟩

/-- C3 counterexample: in state `A3` the fetched `indirect_prod` column of
`"0111"` has two rows, but the row `"9999"` has no registered product name
and is dropped rather than given a fallback label: the result has a single
impact entry, not one per row. -/
theorem C3_counterexample :
    assocLookup "0111" A3.indirect_prod.cols = some [("0111", 1), ("9999", 1)]
    ∧ (calculate_direct_effects A3 (PyVal.pstr "0111") 1000 "indirect_prod").toOption.map
        (fun r => r.impacts.length) = some 1
    ∧ ¬((calculate_direct_effects A3 (PyVal.pstr "0111") 1000 "indirect_prod").toOption.map
        (fun r => r.impacts.length)
      = some ([("0111", (1 : ℚ)), ("9999", 1)] : List (String × ℚ)).length) := by
  refine ⟨by decide, by decide, by decide⟩

/-- C4 (amended): `aggregate_to_code_h` includes an entry's impact iff the
source's cascaded category resolution yields a truthy `code_h` (for a
result carrying a `subsector_code`, the sub-sector map is tried first and
the basic map is used as a fallback; a resolved but falsy `code_h` such as
`0` is skipped); the aggregated impacts sum to exactly the sum over the
included entries, the sector counts sum to their number, and each
category's accumulated impact and count equal the contributions of the
entries resolving to it. -/
theorem C4_aggregation_conservation_amended (a : Analyzer) (r : AnalysisResult) :
    aggImpactSum (aggregate_to_code_h a r).impacts
      = ((r.impacts.filter (includedEntry a r.subsector_code.isSome)).map
          (fun e => e.impact)).sum
    ∧ aggCountSum (aggregate_to_code_h a r).impacts
      = (r.impacts.filter (includedEntry a r.subsector_code.isSome)).length
    ∧ ∀ ch : PyVal,
        catImpact (aggregate_to_code_h a r).impacts ch
          = ((r.impacts.filter (fun e =>
              decide (resolveContrib a r.subsector_code.isSome e.sector_code = some ch))).map
                (fun e => e.impact)).sum
        ∧ catCount (aggregate_to_code_h a r).impacts ch
          = (r.impacts.filter (fun e =>
              decide (resolveContrib a r.subsector_code.isSome e.sector_code = some ch))).length := by
  have himp : (aggregate_to_code_h a r).impacts
      = sortDesc aggKey (aggFold a r.subsector_code.isSome [] r.impacts) := rfl
  refine ⟨?_, ?_, ?_⟩
  · rw [himp, aggImpactSum_sortDesc, aggFold_sum]
    simp [aggImpactSum]
  · rw [himp, aggCountSum_sortDesc, aggFold_count]
    simp [aggCountSum]
  · intro ch
    constructor
    · rw [himp, catImpact_sortDesc, aggFold_catImpact]
      simp [catImpact]
    · rw [himp, catCount_sortDesc, aggFold_catCount]
      simp [catCount]

/-- C4 counterexample: a job-coefficient result (`R4` carries
`subsector_code`) with an entry whose code the appropriate
(sub-sector-to-category) mapping cannot resolve; the claim then requires
the entry to be excluded, but the source falls back to the
basic-to-category map and includes it: the aggregation holds one category
with the entry's impact `1`, while the entries resolvable through the
appropriate mapping are empty, with sum `0 ≠ 1`. -/
theorem C4_counterexample :
    (aggregate_to_code_h A4 R4).impacts = [AggEntry.mk (PyVal.pint 7) "Misc" 1 1]
    ∧ R4.impacts.filter (specAppropriateResolvable A4 R4) = []
    ∧ aggImpactSum (aggregate_to_code_h A4 R4).impacts
        ≠ ((R4.impacts.filter (specAppropriateResolvable A4 R4)).map (fun e => e.impact)).sum := by
  have h1 : (aggregate_to_code_h A4 R4).impacts = [AggEntry.mk (PyVal.pint 7) "Misc" 1 1] := by
    decide
  have h2 : R4.impacts.filter (specAppropriateResolvable A4 R4) = [] := by decide
  refine ⟨h1, h2, ?_⟩
  rw [h1, h2]
  simp [aggImpactSum]

/-- C8: the four buckets of `identify_key_sectors` partition the sectors
returned by `calculate_linkages` with no sector argument: their
concatenation is a permutation of that sector list, membership in each
bucket is characterized by comparing the normalized backward/forward
linkages against the threshold exactly as the claim states, and the
buckets are pairwise disjoint. -/
theorem C8_key_sector_partition (a : Analyzer) (th : ℚ) :
    List.Perm
      ((identify_key_sectors a th).key_sectors
        ++ ((identify_key_sectors a th).backward_only
          ++ ((identify_key_sectors a th).forward_only
            ++ (identify_key_sectors a th).weak_linkage)))
      (calculate_linkages_all a).sectors
    ∧ (∀ x, x ∈ (identify_key_sectors a th).key_sectors
        ↔ x ∈ (calculate_linkages_all a).sectors
          ∧ th < x.backward_normalized ∧ th < x.forward_normalized)
    ∧ (∀ x, x ∈ (identify_key_sectors a th).backward_only
        ↔ x ∈ (calculate_linkages_all a).sectors
          ∧ th < x.backward_normalized ∧ ¬(th < x.forward_normalized))
    ∧ (∀ x, x ∈ (identify_key_sectors a th).forward_only
        ↔ x ∈ (calculate_linkages_all a).sectors
          ∧ ¬(th < x.backward_normalized) ∧ th < x.forward_normalized)
    ∧ (∀ x, x ∈ (identify_key_sectors a th).weak_linkage
        ↔ x ∈ (calculate_linkages_all a).sectors
          ∧ ¬(th < x.backward_normalized) ∧ ¬(th < x.forward_normalized))
    ∧ (∀ x,
        ¬(x ∈ (identify_key_sectors a th).key_sectors
          ∧ x ∈ (identify_key_sectors a th).backward_only)
        ∧ ¬(x ∈ (identify_key_sectors a th).key_sectors
          ∧ x ∈ (identify_key_sectors a th).forward_only)
        ∧ ¬(x ∈ (identify_key_sectors a th).key_sectors
          ∧ x ∈ (identify_key_sectors a th).weak_linkage)
        ∧ ¬(x ∈ (identify_key_sectors a th).backward_only
          ∧ x ∈ (identify_key_sectors a th).forward_only)
        ∧ ¬(x ∈ (identify_key_sectors a th).backward_only
          ∧ x ∈ (identify_key_sectors a th).weak_linkage)
        ∧ ¬(x ∈ (identify_key_sectors a th).forward_only
          ∧ x ∈ (identify_key_sectors a th).weak_linkage)) := by
  have hk : (identify_key_sectors a th).key_sectors
      = sortDesc (fun s => s.backward_normalized + s.forward_normalized)
          ((calculate_linkages_all a).sectors.filter
            (fun s => decide (s.backward_normalized > th)
              && decide (s.forward_normalized > th))) := rfl
  have hb : (identify_key_sectors a th).backward_only
      = sortDesc (fun s => s.backward_normalized)
          ((calculate_linkages_all a).sectors.filter
            (fun s => decide (s.backward_normalized > th)
              && !(decide (s.forward_normalized > th)))) := rfl
  have hf : (identify_key_sectors a th).forward_only
      = sortDesc (fun s => s.forward_normalized)
          ((calculate_linkages_all a).sectors.filter
            (fun s => !(decide (s.backward_normalized > th))
              && decide (s.forward_normalized > th))) := rfl
  have hw : (identify_key_sectors a th).weak_linkage
      = (calculate_linkages_all a).sectors.filter
          (fun s => !(decide (s.backward_normalized > th))
            && !(decide (s.forward_normalized > th))) := rfl
  have hkeyIff : ∀ x, x ∈ (identify_key_sectors a th).key_sectors
      ↔ x ∈ (calculate_linkages_all a).sectors
        ∧ th < x.backward_normalized ∧ th < x.forward_normalized := by
    intro x
    rw [hk, mem_sortDesc, List.mem_filter]
    simp [Bool.and_eq_true, decide_eq_true_eq]
  have hbwIff : ∀ x, x ∈ (identify_key_sectors a th).backward_only
      ↔ x ∈ (calculate_linkages_all a).sectors
        ∧ th < x.backward_normalized ∧ ¬(th < x.forward_normalized) := by
    intro x
    rw [hb, mem_sortDesc, List.mem_filter]
    simp [Bool.and_eq_true, decide_eq_true_eq]
  have hfwIff : ∀ x, x ∈ (identify_key_sectors a th).forward_only
      ↔ x ∈ (calculate_linkages_all a).sectors
        ∧ ¬(th < x.backward_normalized) ∧ th < x.forward_normalized := by
    intro x
    rw [hf, mem_sortDesc, List.mem_filter]
    simp [Bool.and_eq_true, decide_eq_true_eq]
  have hweakIff : ∀ x, x ∈ (identify_key_sectors a th).weak_linkage
      ↔ x ∈ (calculate_linkages_all a).sectors
        ∧ ¬(th < x.backward_normalized) ∧ ¬(th < x.forward_normalized) := by
    intro x
    rw [hw, List.mem_filter]
    simp [Bool.and_eq_true, decide_eq_true_eq]
  have hperm : List.Perm
      ((identify_key_sectors a th).key_sectors
        ++ ((identify_key_sectors a th).backward_only
          ++ ((identify_key_sectors a th).forward_only
            ++ (identify_key_sectors a th).weak_linkage)))
      (calculate_linkages_all a).sectors := by
    rw [hk, hb, hf, hw]
    refine List.Perm.trans ?_ (filter_partition_perm
      (fun s => decide (s.backward_normalized > th))
      (fun s => decide (s.forward_normalized > th))
      (calculate_linkages_all a).sectors)
    exact (sortDesc_perm _ _).append ((sortDesc_perm _ _).append
      ((sortDesc_perm _ _).append (List.Perm.refl _)))
  refine ⟨hperm, hkeyIff, hbwIff, hfwIff, hweakIff, ?_⟩
  intro x
  refine ⟨?_, ?_, ?_, ?_, ?_, ?_⟩
  · rintro ⟨h1, h2⟩
    obtain ⟨_, _, hx1⟩ := (hkeyIff x).mp h1
    obtain ⟨_, _, hx2⟩ := (hbwIff x).mp h2
    exact hx2 hx1
  · rintro ⟨h1, h2⟩
    obtain ⟨_, hx1, _⟩ := (hkeyIff x).mp h1
    obtain ⟨_, hx2, _⟩ := (hfwIff x).mp h2
    exact hx2 hx1
  · rintro ⟨h1, h2⟩
    obtain ⟨_, hx1, _⟩ := (hkeyIff x).mp h1
    obtain ⟨_, hx2, _⟩ := (hweakIff x).mp h2
    exact hx2 hx1
  · rintro ⟨h1, h2⟩
    obtain ⟨_, hx1, _⟩ := (hbwIff x).mp h1
    obtain ⟨_, hx2, _⟩ := (hfwIff x).mp h2
    exact hx2 hx1
  · rintro ⟨h1, h2⟩
    obtain ⟨_, hx1, _⟩ := (hbwIff x).mp h1
    obtain ⟨_, hx2, _⟩ := (hweakIff x).mp h2
    exact hx2 hx1
  · rintro ⟨h1, h2⟩
    obtain ⟨_, _, hx1⟩ := (hfwIff x).mp h1
    obtain ⟨_, _, hx2⟩ := (hweakIff x).mp h2
    exact hx2 hx1

/-- C8 witness: the partition permutation at a concrete state and the
default threshold. -/
theorem C8_witness :
    List.Perm
      ((identify_key_sectors A1 1).key_sectors
        ++ ((identify_key_sectors A1 1).backward_only
          ++ ((identify_key_sectors A1 1).forward_only
            ++ (identify_key_sectors A1 1).weak_linkage)))
      (calculate_linkages_all A1).sectors :=
  (C8_key_sector_partition A1 1).1

/-- C9: when `sensitivity_analysis` returns normally it produces exactly
one scenario per demand change, in input order; each scenario is built from
the corresponding `calculate_direct_effects` result, and its
`impact_ratio` is `total_impact / (demand_change / 1000)` for a nonzero
demand change and `0` for a zero demand change (the guard, not a
division-by-zero exception). -/
theorem C9_sensitivity_ratio_guard (a : Analyzer) (s : String) (ds : List ℚ) (t : String)
    (h : exceptIsOk (sensitivity_analysis a s ds t) = true) :
    ∃ r, sensitivity_analysis a s ds t = Except.ok r
      ∧ r.scenarios.length = ds.length
      ∧ ∀ i : Nat, ∀ h1 : i < ds.length, ∀ h2 : i < r.scenarios.length,
          ∃ res, calculate_direct_effects a (PyVal.pstr s) (ds.get ⟨i, h1⟩) t = Except.ok res
            ∧ r.scenarios.get ⟨i, h2⟩ = mkScenario (ds.get ⟨i, h1⟩) res
            ∧ (r.scenarios.get ⟨i, h2⟩).impact_ratio
                = (if ds.get ⟨i, h1⟩ ≠ 0 then res.total_impact / (ds.get ⟨i, h1⟩ / 1000)
                  else 0) := by
  unfold sensitivity_analysis at h ⊢
  cases hrun : runScenarios a s t ds with
  | error e =>
    rw [hrun] at h
    simp [exceptIsOk] at h
  | ok scs =>
    rw [hrun] at h
    cases hname : assocLookup s a.code_to_product with
    | none =>
      simp [hname, exceptIsOk] at h
    | some nm =>
      refine ⟨SensResult.mk s nm t scs, ?_, ?_, ?_⟩
      · simp [hname]
      · exact (runScenarios_ok a s t ds scs hrun).1
      · intro i h1 h2
        obtain ⟨res, hres, hsc⟩ := (runScenarios_ok a s t ds scs hrun).2 i h1 h2
        refine ⟨res, hres, hsc, ?_⟩
        rw [hsc]
        rfl

/-- C9 witness: at a concrete state with demand changes `[0, 100000]` the
analysis returns normally with two scenarios and the first scenario's
`impact_ratio` is `0`. -/
theorem C9_witness :
    ((sensitivity_analysis A1 "0111" [0, 100000] "indirect_prod").toOption.map
        (fun r => r.scenarios.length)) = some 2
    ∧ ((sensitivity_analysis A1 "0111" [0, 100000] "indirect_prod").toOption.map
        (fun r => r.scenarios.head?.map (fun sc => sc.impact_ratio))) = some (some 0) := by
  obtain ⟨r, hr, hlen, hidx⟩ :=
    C9_sensitivity_ratio_guard A1 "0111" [0, 100000] "indirect_prod" (by decide)
  have h1 : (0 : Nat) < ([0, 100000] : List ℚ).length := by simp
  have h2 : (0 : Nat) < r.scenarios.length := by rw [hlen]; simp
  obtain ⟨res, hres, hsc, hrat⟩ := hidx 0 h1 h2
  have hd0 : (([0, 100000] : List ℚ).get ⟨0, h1⟩) = 0 := rfl
  rw [hd0] at hrat
  rw [if_neg (by simp : ¬((0 : ℚ) ≠ 0))] at hrat
  constructor
  · rw [hr]
    simp [Except.toOption, hlen]
  · rw [hr]
    cases hscen : r.scenarios with
    | nil =>
      rw [hscen] at hlen
      simp at hlen
    | cons sc0 rest =>
      have hget : r.scenarios.get ⟨0, h2⟩ = sc0 := by
        rw [List.get_of_eq hscen]
        rfl
      rw [hget] at hrat
      simp only [Except.toOption, Option.map_some', hscen, List.head?]
      rw [hrat]
